import Mathlib

/-!
Mesh container and tessellation flattening of `occt.cpp`.

Shallow embedding of `src/occt/src/occt.cpp`.

* Scalars of the flat buffers (`float`) are an arbitrary type `α`; where the code
  compares them the type carries its comparison `<`, which need not be total (a type
  with NaN is `FloatValue`); the theorems on tight boxes assume a linear order.  The
  placeholder mesh, whose literals are dyadic rationals, is stated over `ℚ`.
* `std::vector<T>` is `List T`; `push_back` appends one element at the end.
* `std::uint32_t` values are natural numbers reduced modulo `2 ^ 32`.
* Model-space doubles of the construction are rationals; the kernel's builders and
  computations are parameters (`Modeller`, `Kernel`).
-/

namespace occt

/-! ## Data model (occt.cpp, lines 34-65) -/

/-- Struct `Vertex` (lines 34-37): three scalars. -/
structure Vertex (α : Type) where
  x : α
  y : α
  z : α
deriving DecidableEq

/-- Struct `Triangle` (lines 39-42): three `std::uint32_t` indices. -/
structure Triangle where
  x : Nat
  y : Nat
  z : Nat
deriving DecidableEq

/-- Struct `Tuple3f` of the bridge header: a corner of the bounding box. -/
structure Tuple3f (α : Type) where
  x : α
  y : α
  z : α
deriving DecidableEq

/-- Struct `MeshBbox` of the bridge header. -/
structure MeshBbox (α : Type) where
  min : Tuple3f α
  max : Tuple3f α
deriving DecidableEq

/-- Method `std::vector::push_back`: one element appended at the end. -/
def push_back {β : Type} (xs : List β) (x : β) : List β :=
  xs ++ [x]

/-- Struct `MeshBlobInit` (lines 46-51). -/
structure MeshBlobInit (α : Type) where
  verts : List (Vertex α)
  norms : List (Vertex α)
  tris : List Triangle

/-- Struct `MeshBlob::Impl` (lines 53-65), the state a `MeshBlob` owns through `m_d`. -/
structure MeshBlob (α : Type) where
  verts : List (Vertex α)
  norms : List (Vertex α)
  tris : List Triangle
  bbox : MeshBbox α

/-- Constructor `Impl()` (lines 55-59): empty vectors, both corners set to zero. -/
def MeshBlob.Impl {α : Type} [Zero α] : MeshBlob α :=
  { verts := [], norms := [], tris := [], bbox := { min := ⟨0, 0, 0⟩, max := ⟨0, 0, 0⟩ } }

/-! ## The two constructors (lines 67-129) -/

/-- Constructor `MeshBlob()` (lines 67-79): the placeholder triangle.  The bounding box
is whatever `Impl()` left. -/
def MeshBlob.default : MeshBlob ℚ :=
  let m_d : MeshBlob ℚ := MeshBlob.Impl
  let m_d := { m_d with verts := push_back m_d.verts ⟨-0.5, -0.5, 0.0⟩ }
  let m_d := { m_d with verts := push_back m_d.verts ⟨0.5, -0.5, 0.0⟩ }
  let m_d := { m_d with verts := push_back m_d.verts ⟨0.0, 0.5, 0.0⟩ }
  let m_d := { m_d with norms := push_back m_d.norms ⟨0.0, 0.0, 1.0⟩ }
  let m_d := { m_d with norms := push_back m_d.norms ⟨0.0, 0.0, 1.0⟩ }
  let m_d := { m_d with norms := push_back m_d.norms ⟨0.0, 0.0, 1.0⟩ }
  { m_d with tris := push_back m_d.tris ⟨0, 1, 2⟩ }

/-- Body of the range-for loop of lines 93-124: six independent compare-and-assign
statements on the running corners. -/
def bboxStep {α : Type} [LT α] [DecidableRel fun a b : α => a < b] (b : MeshBbox α)
    (v : Vertex α) : MeshBbox α :=
  let min := b.min
  let max := b.max
  let min := if min.x > v.x then { min with x := v.x } else min
  let min := if min.y > v.y then { min with y := v.y } else min
  let min := if min.z > v.z then { min with z := v.z } else min
  let max := if max.x < v.x then { max with x := v.x } else max
  let max := if max.y < v.y then { max with y := v.y } else max
  let max := if max.z < v.z then { max with z := v.z } else max
  { min := min, max := max }

/-- Constructor `MeshBlob(MeshBlobInit)` (lines 81-129): the three vectors are moved in;
when `verts` is not empty both corners start at `verts[0]` and the loop runs over every
vertex (the first one included); otherwise the box of `Impl()` stays. -/
def MeshBlob.ofInit {α : Type} [LT α] [DecidableRel fun a b : α => a < b] [Zero α]
    (init : MeshBlobInit α) : MeshBlob α :=
  let m_d : MeshBlob α := MeshBlob.Impl
  let m_d := { m_d with verts := init.verts, norms := init.norms, tris := init.tris }
  match m_d.verts with
  | [] => m_d
  | v0 :: _ =>
    let min : Tuple3f α := ⟨v0.x, v0.y, v0.z⟩
    let max := min
    let b := m_d.verts.foldl bboxStep { min := min, max := max }
    { m_d with bbox := b }

/-- Component-wise containment of the vertex `v` in the box `b`. -/
def Inside {α : Type} [LE α] (b : MeshBbox α) (v : Vertex α) : Prop :=
  (b.min.x ≤ v.x ∧ v.x ≤ b.max.x) ∧ (b.min.y ≤ v.y ∧ v.y ≤ b.max.y) ∧
    (b.min.z ≤ v.z ∧ v.z ≤ b.max.z)

/-- Each of the six bounds of `b` is a coordinate of some vertex of `vs`. -/
def Attained {α : Type} (b : MeshBbox α) (vs : List (Vertex α)) : Prop :=
  (∃ v ∈ vs, b.min.x = v.x) ∧ (∃ v ∈ vs, b.min.y = v.y) ∧ (∃ v ∈ vs, b.min.z = v.z) ∧
    (∃ v ∈ vs, b.max.x = v.x) ∧ (∃ v ∈ vs, b.max.y = v.y) ∧
    (∃ v ∈ vs, b.max.z = v.z)

/-- The box `b` is the tight component-wise minimum and maximum of `vs`. -/
def TightBbox {α : Type} [LE α] (b : MeshBbox α) (vs : List (Vertex α)) : Prop :=
  (∀ v ∈ vs, Inside b v) ∧ Attained b vs

/-- The invariant of the spec's data model: tight box, or the zero box without vertices. -/
def BboxInvariant {α : Type} [LE α] [Zero α] (m : MeshBlob α) : Prop :=
  (m.verts = [] → m.bbox = { min := ⟨0, 0, 0⟩, max := ⟨0, 0, 0⟩ }) ∧
    (m.verts ≠ [] → TightBbox m.bbox m.verts)

/-! ### Scalars with NaN

The comparisons `<` and `>` of `float` are false as soon as one side is NaN.  `FloatValue`
keeps exactly that: a finite value (an integer, for the sake of evaluation) or NaN. -/

/-- A `float` as the comparisons of lines 95-123 see it: a finite value or NaN. -/
inductive FloatValue where
  | finite (v : ℤ)
  | NaN
deriving DecidableEq

/-- Operator `<` on `float`: false when a side is NaN. -/
def FloatValue.blt : FloatValue → FloatValue → Bool
  | .finite x, .finite y => decide (x < y)
  | _, _ => false

/-- Operator `<=` on `float`: false when a side is NaN. -/
def FloatValue.ble : FloatValue → FloatValue → Bool
  | .finite x, .finite y => decide (x ≤ y)
  | _, _ => false

/-- Unary minus on `float`: NaN stays NaN. -/
def FloatValue.neg : FloatValue → FloatValue
  | .finite x => .finite (-x)
  | .NaN => .NaN

instance : LT FloatValue :=
  ⟨fun a b => a.blt b = true⟩

instance : LE FloatValue :=
  ⟨fun a b => a.ble b = true⟩

instance : DecidableRel fun a b : FloatValue => a < b :=
  fun a b => inferInstanceAs (Decidable (a.blt b = true))

instance : DecidableRel fun a b : FloatValue => a ≤ b :=
  fun a b => inferInstanceAs (Decidable (a.ble b = true))

instance : Zero FloatValue :=
  ⟨.finite 0⟩

instance : Neg FloatValue :=
  ⟨FloatValue.neg⟩

/-- Two vertices, the first with a NaN abscissa; no normal and no triangle. -/
def fixtureNaNInit : MeshBlobInit FloatValue :=
  ⟨[⟨.NaN, .finite 0, .finite 0⟩, ⟨.finite 1, .finite 0, .finite 0⟩], [], []⟩

/-- Two vertices over the integers, no normal and no triangle. -/
def fixtureInit : MeshBlobInit ℤ :=
  ⟨[⟨1, 2, 3⟩, ⟨-1, 5, 0⟩], [], []⟩

/-! ## Kernel data read by the flattening loop (lines 242-327)

The modelling kernel is not part of the repository.  Its objects appear here as the
values the loop reads from them: counts are array lengths (`Nat`), `Node`, `Normal` and
`Triangle` are indexed from one as in the kernel, triangle indices are `Standard_Integer`
values (`Int`), and the three kernel computations the loop calls on its data are fields
of `Kernel`. -/

/-- Class `gp_XYZ`: a triple of doubles. -/
structure gp_XYZ (D : Type) where
  X : D
  Y : D
  Z : D
deriving DecidableEq

/-- Method `gp_XYZ::Reverse`: the three coordinates change sign. -/
def gp_XYZ.Reverse {D : Type} [Neg D] (p : gp_XYZ D) : gp_XYZ D :=
  ⟨-p.X, -p.Y, -p.Z⟩

/-- Enumeration `TopAbs_Orientation`. -/
inductive TopAbs_Orientation where
  | TopAbs_FORWARD
  | TopAbs_REVERSED
  | TopAbs_INTERNAL
  | TopAbs_EXTERNAL
deriving DecidableEq

/-- Class `Poly_Triangulation` through the accessors the loop uses.  `ComputedNormal` is
the normal array that `ComputeNormals()` stores when the triangulation has none. -/
structure Poly_Triangulation (D : Type) where
  NbNodes : Nat
  Node : Nat → gp_XYZ D
  HasNormals : Bool
  Normal : Nat → gp_XYZ D
  ComputedNormal : Nat → gp_XYZ D
  NbTriangles : Nat
  Triangle : Nat → Int × Int × Int

/-- Method `Poly_Triangulation::ComputeNormals`: fills the normal array, nothing else. -/
def Poly_Triangulation.ComputeNormals {D : Type} (t : Poly_Triangulation D) :
    Poly_Triangulation D :=
  { t with HasNormals := true, Normal := t.ComputedNormal }

/-- Class `TopLoc_Location` holding a `gp_Trsf` of type `T`. -/
structure TopLoc_Location (T : Type) where
  IsIdentity : Bool
  Transformation : T

/-- One face met by the explorer of line 244: the handle and the location returned by
`BRep_Tool::Triangulation(face, loc)` (`none` is the null handle) and the orientation. -/
structure TopoDS_Face (D T : Type) where
  Triangulation : Option (Poly_Triangulation D)
  loc : TopLoc_Location T
  Orientation : TopAbs_Orientation

/-- Computations of the kernel and of the language that the loop applies to its data:
`static_cast<float>`, `gp_Pnt::Transformed` and `gp_Dir::Transformed`. -/
structure Kernel (D F T : Type) where
  toFloat : D → F
  PntTransformed : gp_XYZ D → T → gp_XYZ D
  DirTransformed : gp_XYZ D → T → gp_XYZ D

/-- Conversion `static_cast<std::uint32_t>` of a `std::size_t`. -/
def u32OfSize (n : Nat) : Nat :=
  n % 2 ^ 32

/-- Conversion `static_cast<std::uint32_t>` of an `int`: the residue modulo `2 ^ 32`. -/
def u32OfInt (i : Int) : Nat :=
  (i % 2 ^ 32).toNat

/-- Addition of two `std::uint32_t` values. -/
def u32Add (a b : Nat) : Nat :=
  (a + b) % 2 ^ 32

/-! ## The flattening loop of `make_flask` (lines 244-327) -/

section flatten
variable {D F T : Type}

/-- Body of the node loop in the identity branch (lines 274-289). -/
def nodeIdentity [Neg D] (K : Kernel D F T) (face_tri : Poly_Triangulation D)
    (orientation : TopAbs_Orientation) (st : MeshBlobInit F) (i : Nat) : MeshBlobInit F :=
  let pos := face_tri.Node i
  let st := { st with
    verts := push_back st.verts ⟨K.toFloat pos.X, K.toFloat pos.Y, K.toFloat pos.Z⟩ }
  let norm := face_tri.Normal i
  let norm := if orientation = TopAbs_Orientation.TopAbs_REVERSED then norm.Reverse else norm
  { st with norms := push_back st.norms ⟨K.toFloat norm.X, K.toFloat norm.Y, K.toFloat norm.Z⟩ }

/-- Body of the node loop in the transformed branch (lines 298-313). -/
def nodeTransformed [Neg D] (K : Kernel D F T) (face_tri : Poly_Triangulation D) (trsf : T)
    (orientation : TopAbs_Orientation) (st : MeshBlobInit F) (i : Nat) : MeshBlobInit F :=
  let pos := K.PntTransformed (face_tri.Node i) trsf
  let st := { st with
    verts := push_back st.verts ⟨K.toFloat pos.X, K.toFloat pos.Y, K.toFloat pos.Z⟩ }
  let norm := K.DirTransformed (face_tri.Normal i) trsf
  let norm := if orientation = TopAbs_Orientation.TopAbs_REVERSED then norm.Reverse else norm
  { st with norms := push_back st.norms ⟨K.toFloat norm.X, K.toFloat norm.Y, K.toFloat norm.Z⟩ }

/-- Body of the triangle loop (lines 319-325). -/
def triangleBody (face_tri : Poly_Triangulation D) (vert_start : Nat) (st : MeshBlobInit F)
    (i : Nat) : MeshBlobInit F :=
  let idx := face_tri.Triangle i
  let t : Triangle :=
    ⟨u32Add vert_start (u32OfInt (idx.1 - 1)),
      u32Add vert_start (u32OfInt (idx.2.1 - 1)),
      u32Add vert_start (u32OfInt (idx.2.2 - 1))⟩
  { st with tris := push_back st.tris t }

/-- Body of the face loop (lines 246-326).  The loops `for(int i = 1; i <= n; ++i)` run
over `List.range' 1 n`, that is `1, ..., n`. -/
def faceBody [Neg D] (K : Kernel D F T) (st : MeshBlobInit F) (face : TopoDS_Face D T) :
    MeshBlobInit F :=
  match face.Triangulation with
  | none => st
  | some face_tri =>
    let triangles_n := face_tri.NbTriangles
    if triangles_n < 1 then st
    else
      let vert_start := u32OfSize st.verts.length
      let face_tri := if !face_tri.HasNormals then face_tri.ComputeNormals else face_tri
      let nodes_n := face_tri.NbNodes
      let st :=
        if face.loc.IsIdentity then
          (List.range' 1 nodes_n).foldl (nodeIdentity K face_tri face.Orientation) st
        else
          let trsf := face.loc.Transformation
          (List.range' 1 nodes_n).foldl (nodeTransformed K face_tri trsf face.Orientation) st
      (List.range' 1 triangles_n).foldl (triangleBody face_tri vert_start) st

/-- The whole loop of lines 244-327 over the faces in explorer order, from the three empty
vectors of lines 234-236. -/
def flatten [Neg D] (K : Kernel D F T) (faces : List (TopoDS_Face D T)) : MeshBlobInit F :=
  faces.foldl (faceBody K) ⟨[], [], []⟩

/-! ### Vocabulary of the claims about the loop -/

/-- A face the loop passes over: null triangulation, or fewer than one triangle. -/
def skipped (face : TopoDS_Face D T) : Bool :=
  match face.Triangulation with
  | none => true
  | some face_tri => decide (face_tri.NbTriangles < 1)

/-- Node count of a face (zero for a null triangulation). -/
def nodeCount (face : TopoDS_Face D T) : Nat :=
  match face.Triangulation with
  | none => 0
  | some face_tri => face_tri.NbNodes

/-- Total node count of a sequence of face tessellations. -/
def totalNodes (faces : List (TopoDS_Face D T)) : Nat :=
  (faces.map nodeCount).sum

/-- The local triangles of a face in their local order `1, ..., NbTriangles`. -/
def localTriangles (face : TopoDS_Face D T) : List (Int × Int × Int) :=
  match face.Triangulation with
  | none => []
  | some face_tri => (List.range' 1 face_tri.NbTriangles).map face_tri.Triangle

/-- Every index of every local triangle of the face lies in `1 .. NbNodes`. -/
def IndicesInRange (face : TopoDS_Face D T) : Prop :=
  ∀ t ∈ localTriangles face,
    (1 ≤ t.1 ∧ t.1 ≤ nodeCount face) ∧ (1 ≤ t.2.1 ∧ t.2.1 ≤ nodeCount face) ∧
      (1 ≤ t.2.2 ∧ t.2.2 ≤ nodeCount face)

/-- The normal the kernel reports for node `i` of a face: the stored normal, or the
computed one when none is stored. -/
def kernelNormal (face_tri : Poly_Triangulation D) (i : Nat) : gp_XYZ D :=
  if face_tri.HasNormals then face_tri.Normal i else face_tri.ComputedNormal i

/-- The kernel-reported normal of node `i`, transformed unless the location is the
identity. -/
def placedNormal (K : Kernel D F T) (face : TopoDS_Face D T) (face_tri : Poly_Triangulation D)
    (i : Nat) : gp_XYZ D :=
  if face.loc.IsIdentity then kernelNormal face_tri i
  else K.DirTransformed (kernelNormal face_tri i) face.loc.Transformation

/-- The position of node `i`, transformed unless the location is the identity. -/
def placedNode (K : Kernel D F T) (face : TopoDS_Face D T) (face_tri : Poly_Triangulation D)
    (i : Nat) : gp_XYZ D :=
  if face.loc.IsIdentity then face_tri.Node i
  else K.PntTransformed (face_tri.Node i) face.loc.Transformation

/-- Component-wise `static_cast<float>` of a triple into a buffer entry. -/
def castXYZ (K : Kernel D F T) (p : gp_XYZ D) : Vertex F :=
  ⟨K.toFloat p.X, K.toFloat p.Y, K.toFloat p.Z⟩

/-- The sign adjustment of lines 282-285 and 306-309. -/
def orient [Neg D] (orientation : TopAbs_Orientation) (norm : gp_XYZ D) : gp_XYZ D :=
  if orientation = TopAbs_Orientation.TopAbs_REVERSED then norm.Reverse else norm

/-- The triangle pushed at line 323 for the local triple `idx`. -/
def globalTriangle (vert_start : Nat) (idx : Int × Int × Int) : Triangle :=
  ⟨u32Add vert_start (u32OfInt (idx.1 - 1)), u32Add vert_start (u32OfInt (idx.2.1 - 1)),
    u32Add vert_start (u32OfInt (idx.2.2 - 1))⟩

/-- Vertices one face appends (none when the face is skipped), nodes `1, ..., NbNodes`. -/
def faceVerts (K : Kernel D F T) (face : TopoDS_Face D T) : List (Vertex F) :=
  match face.Triangulation with
  | none => []
  | some face_tri =>
    if face_tri.NbTriangles < 1 then []
    else (List.range' 1 face_tri.NbNodes).map fun i => castXYZ K (placedNode K face face_tri i)

/-- Normals one face appends (none when the face is skipped). -/
def faceNorms [Neg D] (K : Kernel D F T) (face : TopoDS_Face D T) : List (Vertex F) :=
  match face.Triangulation with
  | none => []
  | some face_tri =>
    if face_tri.NbTriangles < 1 then []
    else (List.range' 1 face_tri.NbNodes).map fun i =>
      castXYZ K (orient face.Orientation (placedNormal K face face_tri i))

/-- Triangles one face appends when the loop reads `vert_start` at line 261. -/
def faceTris (vert_start : Nat) (face : TopoDS_Face D T) : List Triangle :=
  (localTriangles face).map (globalTriangle vert_start)

/-- Every index of every triangle of the buffers is below the number of vertices. -/
def IndicesBelow (st : MeshBlobInit F) : Prop :=
  ∀ t ∈ st.tris, t.x < st.verts.length ∧ t.y < st.verts.length ∧ t.z < st.verts.length

/-- Two faces that agree in everything the loop reads except the orientation flag. -/
def SameButOrientation (f g : TopoDS_Face D T) : Prop :=
  f.Triangulation = g.Triangulation ∧ f.loc = g.loc

/-- A triangle of the output read as three integers. -/
def Triangle.toInts (t : Triangle) : Int × Int × Int :=
  (t.x, t.y, t.z)

/-- The statement of C6 for the face `f` met after the faces `pre` and before the faces
`post`: behind the triangles of `pre`, the output holds the local triangles of `f` in
their order, each index `a` replaced by the integer `vertex_start + a - 1`, where
`vertex_start` is the number of vertices emitted for `pre`. -/
def EmittedWithOffset [Neg D] (K : Kernel D F T) (pre : List (TopoDS_Face D T))
    (f : TopoDS_Face D T) (post : List (TopoDS_Face D T)) : Prop :=
  (flatten K pre).tris.map Triangle.toInts ++
      (localTriangles f).map (fun t =>
        (((flatten K pre).verts.length : Int) + t.1 - 1,
          ((flatten K pre).verts.length : Int) + t.2.1 - 1,
          ((flatten K pre).verts.length : Int) + t.2.2 - 1)) <+:
    (flatten K (pre ++ f :: post)).tris.map Triangle.toInts

/-- The exact value `n + a - 1` is a `std::uint32_t`. -/
def FitsU32 (n : Nat) (a : Int) : Prop :=
  1 ≤ (n : Int) + a ∧ (n : Int) + a ≤ 2 ^ 32

end flatten

/-! ### The synthetic fixture of the spec, over the integers

Face A has 4 nodes, 2 triangles, stored normals and the identity location; face B has
3 nodes, 1 triangle, no stored normals, a translation by 10 and reversed orientation;
face C has 5 nodes and no triangle. -/

/-- Kernel over the integers: the cast is the identity, a transformation is a translation
by the same amount along the three axes, and directions are not moved by it. -/
def fixtureKernel : Kernel ℤ ℤ ℤ :=
  { toFloat := id
    PntTransformed := fun p t => ⟨p.X + t, p.Y + t, p.Z + t⟩
    DirTransformed := fun p _ => p }

/-- Face A of the fixture. -/
def fixtureA : TopoDS_Face ℤ ℤ :=
  { Triangulation := some
      { NbNodes := 4
        Node := fun i => ⟨i, 0, 0⟩
        HasNormals := true
        Normal := fun _ => ⟨0, 0, 1⟩
        ComputedNormal := fun _ => ⟨0, 0, 7⟩
        NbTriangles := 2
        Triangle := fun i => if i = 1 then (1, 2, 3) else (1, 3, 4) }
    loc := ⟨true, 0⟩
    Orientation := TopAbs_Orientation.TopAbs_FORWARD }

/-- Triangulation of face B of the fixture. -/
def fixtureTriB : Poly_Triangulation ℤ :=
  { NbNodes := 3
    Node := fun i => ⟨0, i, 0⟩
    HasNormals := false
    Normal := fun _ => ⟨0, 0, 1⟩
    ComputedNormal := fun _ => ⟨0, 5, 0⟩
    NbTriangles := 1
    Triangle := fun _ => (1, 2, 3) }

/-- Face B of the fixture. -/
def fixtureB : TopoDS_Face ℤ ℤ :=
  { Triangulation := some fixtureTriB
    loc := ⟨false, 10⟩
    Orientation := TopAbs_Orientation.TopAbs_REVERSED }

/-- Face B with the orientation flag forward. -/
def fixtureBForward : TopoDS_Face ℤ ℤ :=
  { fixtureB with Orientation := TopAbs_Orientation.TopAbs_FORWARD }

/-- Kernel over `FloatValue`: the cast keeps the value (NaN stays NaN), no transformation
moves anything. -/
def floatKernel : Kernel FloatValue FloatValue ℤ :=
  { toFloat := id
    PntTransformed := fun p _ => p
    DirTransformed := fun p _ => p }

/-- A face with the single node `(x, 0, 0)` and one triangle. -/
def fixtureNode (x : FloatValue) : TopoDS_Face FloatValue ℤ :=
  { Triangulation := some
      { NbNodes := 1
        Node := fun _ => ⟨x, .finite 0, .finite 0⟩
        HasNormals := true
        Normal := fun _ => ⟨.finite 0, .finite 0, .finite 1⟩
        ComputedNormal := fun _ => ⟨.finite 0, .finite 0, .finite 1⟩
        NbTriangles := 1
        Triangle := fun _ => (1, 1, 1) }
    loc := ⟨true, 0⟩
    Orientation := TopAbs_Orientation.TopAbs_FORWARD }

/-- A face with `2 ^ 30` nodes and one triangle. -/
def fixtureLarge : TopoDS_Face ℤ ℤ :=
  { Triangulation := some
      { NbNodes := 2 ^ 30
        Node := fun _ => ⟨0, 0, 0⟩
        HasNormals := true
        Normal := fun _ => ⟨0, 0, 1⟩
        ComputedNormal := fun _ => ⟨0, 0, 1⟩
        NbTriangles := 1
        Triangle := fun _ => (1, 1, 1) }
    loc := ⟨true, 0⟩
    Orientation := TopAbs_Orientation.TopAbs_FORWARD }

/-- Face C of the fixture: nodes but no triangle. -/
def fixtureC : TopoDS_Face ℤ ℤ :=
  { Triangulation := some
      { NbNodes := 5
        Node := fun i => ⟨i, i, i⟩
        HasNormals := true
        Normal := fun _ => ⟨1, 0, 0⟩
        ComputedNormal := fun _ => ⟨1, 0, 0⟩
        NbTriangles := 0
        Triangle := fun _ => (1, 1, 1) }
    loc := ⟨true, 0⟩
    Orientation := TopAbs_Orientation.TopAbs_FORWARD }

/-! ## Construction of the solid in `make_flask` (lines 171-232)

Model-space doubles are rationals here: the arithmetic of lines 177-221 is exact in the
model.  The builders of the modelling kernel are fields of `Modeller`.  A builder whose
construction did not succeed raises when its result is taken (`StdFail_NotDone` and
relatives), so every builder returns `Except E S`; `make_flask` takes each result where
it is built, without `IsDone` test and without `try`. -/

/-- Class `gp_Ax1`: a point and a direction. -/
structure gp_Ax1 (D : Type) where
  Location : gp_XYZ D
  Direction : gp_XYZ D
deriving DecidableEq

/-- Class `gp_Ax2` through the two arguments of the constructor used at line 221. -/
structure gp_Ax2 (D : Type) where
  Location : gp_XYZ D
  Direction : gp_XYZ D
deriving DecidableEq

/-- Static `gp::OX()`: the X axis through the origin. -/
def gp.OX : gp_Ax1 ℚ :=
  ⟨⟨0, 0, 0⟩, ⟨1, 0, 0⟩⟩

/-- Static `gp::DY()`: the Y direction. -/
def gp.DY : gp_XYZ ℚ :=
  ⟨0, 1, 0⟩

/-- The kernel algorithms `make_flask` calls, on shapes of type `S`, raising values of
type `E`.  `Mirrored S A1` is `BRepBuilderAPI_Transform` with the `gp_Trsf` that
`SetMirror(A1)` builds (lines 193-197), `MakeFillet S l` is `BRepFilletAPI_MakeFillet` on
`S` after `Add(r, e)` for each pair of `l` in order (lines 209-216), `Edges` is the edge
explorer of line 211, and `Faces` is what the face explorer of line 244 meets after
`BRepTools::Clean` and the discretisation of lines 225-232, each face with the
triangulation and location `BRep_Tool::Triangulation` returns for it. -/
structure Modeller (E S T : Type) where
  GC_MakeArcOfCircle : gp_XYZ ℚ → gp_XYZ ℚ → gp_XYZ ℚ → Except E S
  GC_MakeSegment : gp_XYZ ℚ → gp_XYZ ℚ → Except E S
  MakeEdge : S → Except E S
  MakeWire : List S → Except E S
  Mirrored : S → gp_Ax1 ℚ → Except E S
  MakeFace : S → Except E S
  MakePrism : S → gp_XYZ ℚ → Except E S
  Edges : S → List S
  MakeFillet : S → List (ℚ × S) → Except E S
  MakeCylinder : gp_Ax2 ℚ → ℚ → ℚ → Except E S
  Fuse : S → S → Except E S
  Faces : S → List (TopoDS_Face ℚ T)

section construction
variable {E S T : Type}

/-- Array `pts` of lines 177-183. -/
def pts (width thickness : ℚ) : Fin 5 → gp_XYZ ℚ :=
  ![⟨-width * 0.5, 0.0, 0.0⟩, ⟨-width * 0.5, 0.0, -thickness * 0.25⟩,
    ⟨0.0, 0.0, -thickness * 0.5⟩, ⟨width * 0.5, 0.0, -thickness * 0.25⟩,
    ⟨width * 0.5, 0.0, 0.0⟩]

/-- Lines 185-202: the half wire, its mirror image and the joined wire `mk_wire.Wire()`. -/
def profile (M : Modeller E S T) (width thickness : ℚ) : Except E S := do
  let arc ← M.GC_MakeArcOfCircle (pts width thickness 1) (pts width thickness 2)
    (pts width thickness 3)
  let seg1 ← M.GC_MakeSegment (pts width thickness 0) (pts width thickness 1)
  let seg2 ← M.GC_MakeSegment (pts width thickness 3) (pts width thickness 4)
  let edge1 ← M.MakeEdge seg1
  let edge2 ← M.MakeEdge arc
  let edge3 ← M.MakeEdge seg2
  let wire1 ← M.MakeWire [edge1, edge2, edge3]
  let wire2 ← M.Mirrored wire1 gp.OX
  M.MakeWire [wire1, wire2]

/-- Line 204: the face on the wire and its prism along `(0, height, 0)`. -/
def extrude (M : Modeller E S T) (width thickness height : ℚ) : Except E S := do
  let wire ← profile M width thickness
  let face ← M.MakeFace wire
  M.MakePrism face ⟨0.0, height, 0.0⟩

/-- Lines 209-216: one `Add(thickness / 12.0, edge)` per explored edge, then `Shape()`. -/
def fillet (M : Modeller E S T) (body : S) (thickness : ℚ) : Except E S :=
  M.MakeFillet body ((M.Edges body).map fun edge => (thickness / 12.0, edge))

/-- Line 221: the fuse of the body with the neck cylinder. -/
def fuseNeck (M : Modeller E S T) (body : S) (thickness height : ℚ) : Except E S := do
  let neck ← M.MakeCylinder ⟨⟨0.0, height, 0.0⟩, gp.DY⟩ (thickness / 4.) (height / 10.)
  M.Fuse body neck

/-- Lines 173-222: the three blocks in sequence, `body` reassigned by each. -/
def solid (M : Modeller E S T) (width thickness height : ℚ) : Except E S := do
  let body ← extrude M width thickness height
  let body ← fillet M body thickness
  fuseNeck M body thickness height

/-- Function `make_flask` (lines 171-336).  It is `noexcept` and holds no handler: when a
builder raises, the run ends inside the function and no `MeshBlob` is returned (`none`);
otherwise the faces of the fused body are flattened and handed to
`MeshBlob(MeshBlobInit)`. -/
def make_flask {F : Type} [LT F] [DecidableRel fun a b : F => a < b] [Zero F]
    (M : Modeller E S T) (K : Kernel ℚ F T)
    (width thickness height : ℚ) : Option (MeshBlob F) :=
  match solid M width thickness height with
  | .error _ => none
  | .ok body =>
    let init := flatten K (M.Faces body)
    some (MeshBlob.ofInit init)

/-- Some construction step of `make_flask` fails: the wire, or else the face, or else the
prism, or else the fillet, or else the fuse with the neck. -/
def StepFails (M : Modeller E S T) (width thickness height : ℚ) : Prop :=
  (∃ e, profile M width thickness = .error e) ∨
    (∃ wire e, profile M width thickness = .ok wire ∧ M.MakeFace wire = .error e) ∨
    (∃ wire face e, profile M width thickness = .ok wire ∧ M.MakeFace wire = .ok face ∧
      M.MakePrism face ⟨0.0, height, 0.0⟩ = .error e) ∨
    (∃ body e, extrude M width thickness height = .ok body ∧
      fillet M body thickness = .error e) ∨
    (∃ body filleted e, extrude M width thickness height = .ok body ∧
      fillet M body thickness = .ok filleted ∧
      fuseNeck M filleted thickness height = .error e)

/-- A `MeshBlob` whose three arrays are empty. -/
def MeshBlob.IsEmpty {F : Type} (m : MeshBlob F) : Prop :=
  m.verts = [] ∧ m.norms = [] ∧ m.tris = []

end construction

/-! ### A symbolic kernel: shapes are their construction history -/

/-- Construction history of a shape. -/
inductive Shape where
  | ArcOfCircle (P1 P2 P3 : gp_XYZ ℚ)
  | Segment (P1 P2 : gp_XYZ ℚ)
  | Edge (curve : Shape)
  | Wire (parts : List Shape)
  | Mirrored (S : Shape) (A1 : gp_Ax1 ℚ)
  | Face (W : Shape)
  | Prism (S : Shape) (V : gp_XYZ ℚ)
  | Fillet (S : Shape) (radii : List (ℚ × Shape))
  | Cylinder (Axes : gp_Ax2 ℚ) (R H : ℚ)
  | Fuse (S1 S2 : Shape)

/-- The kernel in which every builder succeeds and records what it was asked; the body
has no edge to explore and one face, without triangulation. -/
def symbolicModeller : Modeller Unit Shape ℚ :=
  { GC_MakeArcOfCircle := fun P1 P2 P3 => .ok (Shape.ArcOfCircle P1 P2 P3)
    GC_MakeSegment := fun P1 P2 => .ok (Shape.Segment P1 P2)
    MakeEdge := fun c => .ok (Shape.Edge c)
    MakeWire := fun l => .ok (Shape.Wire l)
    Mirrored := fun s a => .ok (Shape.Mirrored s a)
    MakeFace := fun w => .ok (Shape.Face w)
    MakePrism := fun s v => .ok (Shape.Prism s v)
    Edges := fun _ => []
    MakeFillet := fun s l => .ok (Shape.Fillet s l)
    MakeCylinder := fun a r h => .ok (Shape.Cylinder a r h)
    Fuse := fun a b => .ok (Shape.Fuse a b)
    Faces := fun _ => [⟨none, ⟨true, 0⟩, TopAbs_Orientation.TopAbs_FORWARD⟩] }

/-- The symbolic kernel with a fillet that cannot be built. -/
def filletFailsModeller : Modeller Unit Shape ℚ :=
  { symbolicModeller with MakeFillet := fun _ _ => .error () }

/-- The symbolic kernel in which a segment between two coincident points cannot be
built. -/
def coincidentFailsModeller : Modeller Unit Shape ℚ :=
  { symbolicModeller with
    GC_MakeSegment := fun P1 P2 => if P1 = P2 then .error () else .ok (Shape.Segment P1 P2) }

/-- Kernel operations over the rationals: exact cast, translation along `X`. -/
def rationalKernel : Kernel ℚ ℚ ℚ :=
  { toFloat := id
    PntTransformed := fun p t => ⟨p.X + t, p.Y, p.Z⟩
    DirTransformed := fun p _ => p }

/-! ### Vocabulary of the claims about counts and composition -/

section counts
variable {D F T : Type}

/-- Triangle count of a face (zero for a null triangulation). -/
def triangleCount (face : TopoDS_Face D T) : Nat :=
  match face.Triangulation with
  | none => 0
  | some face_tri => face_tri.NbTriangles

/-- The faces the loop does not pass over, in their order. -/
def kept (faces : List (TopoDS_Face D T)) : List (TopoDS_Face D T) :=
  faces.filter fun f => !skipped f

/-- The triangle `t` with the natural number `n` added to each of its three indices. -/
def Triangle.shift (n : Nat) (t : Triangle) : Triangle :=
  ⟨t.x + n, t.y + n, t.z + n⟩

/-- Triangles the loop appends for the faces `l` when `n` vertices were emitted before
them: each face reads `vert_start` from the running vertex count. -/
def trisFrom (K : Kernel D F T) (n : Nat) : List (TopoDS_Face D T) → List Triangle
  | [] => []
  | f :: l => faceTris (u32OfSize n) f ++ trisFrom K (n + (faceVerts K f).length) l

/-- The statement of C19 for the sequences `A` and `B`. -/
def Compositional [Neg D] (K : Kernel D F T) (A B : List (TopoDS_Face D T)) : Prop :=
  (flatten K (A ++ B)).verts = (flatten K A).verts ++ (flatten K B).verts ∧
    (flatten K (A ++ B)).norms = (flatten K A).norms ++ (flatten K B).norms ∧
    (flatten K (A ++ B)).tris =
      (flatten K A).tris ++ (flatten K B).tris.map (Triangle.shift (flatten K A).verts.length)

end counts

/-- A face with one node and one triangle whose first index is `0`. -/
def fixtureZeroIndex : TopoDS_Face ℤ ℤ :=
  { Triangulation := some
      { NbNodes := 1
        Node := fun _ => ⟨0, 0, 0⟩
        HasNormals := true
        Normal := fun _ => ⟨0, 0, 1⟩
        ComputedNormal := fun _ => ⟨0, 0, 1⟩
        NbTriangles := 1
        Triangle := fun _ => (0, 1, 1) }
    loc := ⟨true, 0⟩
    Orientation := TopAbs_Orientation.TopAbs_FORWARD }

/-! ## Accessors of `MeshBlob` (lines 136-169)

The four accessors are `const` methods.  Each is a function of the owned state that
returns its result together with the state after the call.  A pointer obtained by
`reinterpret_cast` from `data()` is the sequence of scalars readable behind it: the
entries in order, each as its three members `x`, `y`, `z`. -/

/-- Struct `MeshVerts` of the bridge header: entry count and pointer to `float`. -/
structure MeshVerts (α : Type) where
  count : Nat
  ptr : List α

/-- Struct `MeshNorms` of the bridge header: entry count and pointer to `float`. -/
structure MeshNorms (α : Type) where
  count : Nat
  ptr : List α

/-- Struct `MeshTris` of the bridge header: entry count and pointer to `std::uint32_t`. -/
structure MeshTris where
  count : Nat
  ptr : List Nat

/-- The three `float` members of a `Vertex` in declaration order. -/
def Vertex.scalars {α : Type} (v : Vertex α) : List α :=
  [v.x, v.y, v.z]

/-- The three `std::uint32_t` members of a `Triangle` in declaration order. -/
def Triangle.scalars (t : Triangle) : List Nat :=
  [t.x, t.y, t.z]

/-- Method `MeshBlob::bbox` (lines 136-139). -/
def MeshBlob.getBbox {α : Type} (m_d : MeshBlob α) : MeshBbox α × MeshBlob α :=
  (m_d.bbox, m_d)

/-- Method `MeshBlob::verts` (lines 141-149). -/
def MeshBlob.getVerts {α : Type} (m_d : MeshBlob α) : MeshVerts α × MeshBlob α :=
  let raw : MeshVerts α :=
    { count := u32OfSize m_d.verts.length, ptr := m_d.verts.flatMap Vertex.scalars }
  (raw, m_d)

/-- Method `MeshBlob::norms` (lines 151-159). -/
def MeshBlob.getNorms {α : Type} (m_d : MeshBlob α) : MeshNorms α × MeshBlob α :=
  let raw : MeshNorms α :=
    { count := u32OfSize m_d.norms.length, ptr := m_d.norms.flatMap Vertex.scalars }
  (raw, m_d)

/-- Method `MeshBlob::tris` (lines 161-169). -/
def MeshBlob.getTris {α : Type} (m_d : MeshBlob α) : MeshTris × MeshBlob α :=
  let raw : MeshTris :=
    { count := u32OfSize m_d.tris.length, ptr := m_d.tris.flatMap Triangle.scalars }
  (raw, m_d)

/-- What a consumer reads through a `float` view: entries of three scalars each. -/
def readVertices {α : Type} : List α → List (Vertex α)
  | x :: y :: z :: rest => ⟨x, y, z⟩ :: readVertices rest
  | _ => []

/-- What a consumer reads through a `std::uint32_t` view: entries of three indices each. -/
def readTriangles : List Nat → List Triangle
  | x :: y :: z :: rest => ⟨x, y, z⟩ :: readTriangles rest
  | _ => []

/-- Two vertices, two normals and one triangle over the integers. -/
def fixtureArrays : MeshBlobInit ℤ :=
  ⟨[⟨1, 2, 3⟩, ⟨-1, 5, 0⟩], [⟨0, 0, 1⟩, ⟨0, 1, 0⟩], [⟨0, 1, 1⟩]⟩

/-! ### Vocabulary of the claims about the profile and the solid -/

/-- Reflection in the plane `x = 0`. -/
def reflectX (P : gp_XYZ ℚ) : gp_XYZ ℚ :=
  ⟨-P.X, P.Y, P.Z⟩

/-- History of the first half wire: segment, arc, segment, as edges in that order. -/
def halfWireHistory (width thickness : ℚ) : Shape :=
  Shape.Wire
    [Shape.Edge (Shape.Segment (pts width thickness 0) (pts width thickness 1)),
      Shape.Edge (Shape.ArcOfCircle (pts width thickness 1) (pts width thickness 2)
        (pts width thickness 3)),
      Shape.Edge (Shape.Segment (pts width thickness 3) (pts width thickness 4))]

/-- History of the joined wire: the half wire and its mirror image about `gp::OX()`. -/
def profileHistory (width thickness : ℚ) : Shape :=
  Shape.Wire [halfWireHistory width thickness,
    Shape.Mirrored (halfWireHistory width thickness) gp.OX]

/-- History of the extruded body. -/
def prismHistory (width thickness height : ℚ) : Shape :=
  Shape.Prism (Shape.Face (profileHistory width thickness)) ⟨0, height, 0⟩

/-- The symbolic kernel with the edge explorer `edges`. -/
def historyModeller (edges : Shape → List Shape) : Modeller Unit Shape ℚ :=
  { symbolicModeller with Edges := edges }

/-! ## Bounding-box lemmas -/

section bbox
variable {α : Type} [LinearOrder α]

theorem bboxStep_min_x (b : MeshBbox α) (v : Vertex α) :
    (bboxStep b v).min.x = Min.min b.min.x v.x := by
  unfold bboxStep
  by_cases h : b.min.x > v.x
  · simp [h, min_eq_right (le_of_lt h)]; split_ifs <;> rfl
  · simp [h, min_eq_left (not_lt.mp h)]; split_ifs <;> rfl

theorem bboxStep_min_y (b : MeshBbox α) (v : Vertex α) :
    (bboxStep b v).min.y = Min.min b.min.y v.y := by
  unfold bboxStep
  by_cases h : b.min.y > v.y
  · simp [h, min_eq_right (le_of_lt h)]; split_ifs <;> simp [h]
  · simp [h, min_eq_left (not_lt.mp h)]; split_ifs <;> simp [h]

theorem bboxStep_min_z (b : MeshBbox α) (v : Vertex α) :
    (bboxStep b v).min.z = Min.min b.min.z v.z := by
  unfold bboxStep
  by_cases h : b.min.z > v.z
  · simp [h, min_eq_right (le_of_lt h)]; split_ifs <;> simp [h]
  · simp [h, min_eq_left (not_lt.mp h)]; split_ifs <;> simp [h]

theorem bboxStep_max_x (b : MeshBbox α) (v : Vertex α) :
    (bboxStep b v).max.x = Max.max b.max.x v.x := by
  unfold bboxStep
  by_cases h : b.max.x < v.x
  · simp [h, max_eq_right (le_of_lt h)]; split_ifs <;> rfl
  · simp [h, max_eq_left (not_lt.mp h)]; split_ifs <;> rfl

theorem bboxStep_max_y (b : MeshBbox α) (v : Vertex α) :
    (bboxStep b v).max.y = Max.max b.max.y v.y := by
  unfold bboxStep
  by_cases h : b.max.y < v.y
  · simp [h, max_eq_right (le_of_lt h)]; split_ifs <;> simp [h]
  · simp [h, max_eq_left (not_lt.mp h)]; split_ifs <;> simp [h]

theorem bboxStep_max_z (b : MeshBbox α) (v : Vertex α) :
    (bboxStep b v).max.z = Max.max b.max.z v.z := by
  unfold bboxStep
  by_cases h : b.max.z < v.z
  · simp [h, max_eq_right (le_of_lt h)]; split_ifs <;> simp [h]
  · simp [h, max_eq_left (not_lt.mp h)]; split_ifs <;> simp [h]

/-- One loop iteration keeps every vertex that was inside and takes the new one in. -/
theorem bboxStep_inside (b : MeshBbox α) (v u : Vertex α) (h : u = v ∨ Inside b u) :
    Inside (bboxStep b v) u := by
  simp only [Inside, bboxStep_min_x, bboxStep_min_y, bboxStep_min_z, bboxStep_max_x,
    bboxStep_max_y, bboxStep_max_z, min_le_iff, le_max_iff]
  rcases h with rfl | ⟨⟨h1, h2⟩, ⟨h3, h4⟩, h5, h6⟩
  · simp
  · simp [h1, h2, h3, h4, h5, h6]

/-- One loop iteration keeps every bound attained, by an old vertex or by the new one. -/
theorem bboxStep_attained (b : MeshBbox α) (v : Vertex α) (S : List (Vertex α))
    (h : Attained b S) : Attained (bboxStep b v) (S ++ [v]) := by
  obtain ⟨⟨a1, m1, e1⟩, ⟨a2, m2, e2⟩, ⟨a3, m3, e3⟩, ⟨a4, m4, e4⟩, ⟨a5, m5, e5⟩,
    ⟨a6, m6, e6⟩⟩ := h
  simp only [Attained, bboxStep_min_x, bboxStep_min_y, bboxStep_min_z, bboxStep_max_x,
    bboxStep_max_y, bboxStep_max_z, List.mem_append, List.mem_singleton]
  refine ⟨?_, ?_, ?_, ?_, ?_, ?_⟩
  · rcases min_choice b.min.x v.x with h | h
    · exact ⟨a1, Or.inl m1, h.trans e1⟩
    · exact ⟨v, Or.inr rfl, h⟩
  · rcases min_choice b.min.y v.y with h | h
    · exact ⟨a2, Or.inl m2, h.trans e2⟩
    · exact ⟨v, Or.inr rfl, h⟩
  · rcases min_choice b.min.z v.z with h | h
    · exact ⟨a3, Or.inl m3, h.trans e3⟩
    · exact ⟨v, Or.inr rfl, h⟩
  · rcases max_choice b.max.x v.x with h | h
    · exact ⟨a4, Or.inl m4, h.trans e4⟩
    · exact ⟨v, Or.inr rfl, h⟩
  · rcases max_choice b.max.y v.y with h | h
    · exact ⟨a5, Or.inl m5, h.trans e5⟩
    · exact ⟨v, Or.inr rfl, h⟩
  · rcases max_choice b.max.z v.z with h | h
    · exact ⟨a6, Or.inl m6, h.trans e6⟩
    · exact ⟨v, Or.inr rfl, h⟩

/-- Loop invariant of lines 93-124: after the loop has run over `l`, the box contains and
is attained on the vertices seen before (`S`) together with `l`. -/
theorem foldl_bboxStep_tight (l : List (Vertex α)) :
    ∀ (b : MeshBbox α) (S : List (Vertex α)), TightBbox b S →
      TightBbox (l.foldl bboxStep b) (S ++ l) := by
  induction l with
  | nil => intro b S h; simpa using h
  | cons v l ih =>
    intro b S h
    have step : TightBbox (bboxStep b v) (S ++ [v]) := by
      refine ⟨?_, bboxStep_attained b v S h.2⟩
      intro u hu
      rcases List.mem_append.mp hu with hu | hu
      · exact bboxStep_inside b v u (Or.inr (h.1 u hu))
      · exact bboxStep_inside b v u (Or.inl (List.mem_singleton.mp hu))
    have := ih (bboxStep b v) (S ++ [v]) step
    simpa using this

/-- Tightness depends on the vertex list only through membership. -/
theorem TightBbox.of_mem_iff {b : MeshBbox α} {S T : List (Vertex α)}
    (h : ∀ v, v ∈ S ↔ v ∈ T) (hS : TightBbox b S) : TightBbox b T := by
  obtain ⟨hin, ⟨a1, m1, e1⟩, ⟨a2, m2, e2⟩, ⟨a3, m3, e3⟩, ⟨a4, m4, e4⟩, ⟨a5, m5, e5⟩,
    ⟨a6, m6, e6⟩⟩ := hS
  exact ⟨fun v hv => hin v ((h v).mpr hv), ⟨a1, (h a1).mp m1, e1⟩, ⟨a2, (h a2).mp m2, e2⟩,
    ⟨a3, (h a3).mp m3, e3⟩, ⟨a4, (h a4).mp m4, e4⟩, ⟨a5, (h a5).mp m5, e5⟩,
    ⟨a6, (h a6).mp m6, e6⟩⟩

/-- The constructor from flattened data keeps the three arrays. -/
theorem ofInit_arrays [Zero α] (init : MeshBlobInit α) :
    (MeshBlob.ofInit init).verts = init.verts ∧ (MeshBlob.ofInit init).norms = init.norms ∧
      (MeshBlob.ofInit init).tris = init.tris := by
  unfold MeshBlob.ofInit
  cases h : init.verts <;> simp [h]

/-- The box computed by the constructor from a non-empty vertex array is tight. -/
theorem ofInit_tight [Zero α] (init : MeshBlobInit α) (h : init.verts ≠ []) :
    TightBbox (MeshBlob.ofInit init).bbox init.verts := by
  unfold MeshBlob.ofInit
  cases hv : init.verts with
  | nil => exact absurd hv h
  | cons v0 l =>
    have start : TightBbox
        ({ min := ⟨v0.x, v0.y, v0.z⟩, max := ⟨v0.x, v0.y, v0.z⟩ } : MeshBbox α) [v0] := by
      refine ⟨?_, ?_⟩
      · intro u hu
        rw [List.mem_singleton.mp hu]
        simp [Inside]
      · simp [Attained]
    have := foldl_bboxStep_tight (v0 :: l) _ [v0] start
    refine TightBbox.of_mem_iff ?_ this
    intro v
    simp

/-- The box left by the constructor for an empty vertex array is the zero box. -/
theorem ofInit_empty [Zero α] (init : MeshBlobInit α) (h : init.verts = []) :
    (MeshBlob.ofInit init).bbox = { min := ⟨0, 0, 0⟩, max := ⟨0, 0, 0⟩ } := by
  unfold MeshBlob.ofInit
  simp [h, MeshBlob.Impl]

/-- Two tight boxes of vertex lists with the same members are equal. -/
theorem TightBbox.unique {b c : MeshBbox α} {S U : List (Vertex α)}
    (h : ∀ v, v ∈ S ↔ v ∈ U) (hb : TightBbox b S) (hc : TightBbox c U) : b = c := by
  obtain ⟨hin, ⟨a1, m1, e1⟩, ⟨a2, m2, e2⟩, ⟨a3, m3, e3⟩, ⟨a4, m4, e4⟩, ⟨a5, m5, e5⟩,
    ⟨a6, m6, e6⟩⟩ := TightBbox.of_mem_iff h hb
  obtain ⟨hin2, ⟨d1, n1, f1⟩, ⟨d2, n2, f2⟩, ⟨d3, n3, f3⟩, ⟨d4, n4, f4⟩, ⟨d5, n5, f5⟩,
    ⟨d6, n6, f6⟩⟩ := hc
  have x1 : b.min.x = c.min.x :=
    le_antisymm (f1 ▸ (hin d1 n1).1.1) (e1 ▸ (hin2 a1 m1).1.1)
  have x2 : b.min.y = c.min.y :=
    le_antisymm (f2 ▸ (hin d2 n2).2.1.1) (e2 ▸ (hin2 a2 m2).2.1.1)
  have x3 : b.min.z = c.min.z :=
    le_antisymm (f3 ▸ (hin d3 n3).2.2.1) (e3 ▸ (hin2 a3 m3).2.2.1)
  have x4 : b.max.x = c.max.x :=
    le_antisymm (e4 ▸ (hin2 a4 m4).1.2) (f4 ▸ (hin d4 n4).1.2)
  have x5 : b.max.y = c.max.y :=
    le_antisymm (e5 ▸ (hin2 a5 m5).2.1.2) (f5 ▸ (hin d5 n5).2.1.2)
  have x6 : b.max.z = c.max.z :=
    le_antisymm (e6 ▸ (hin2 a6 m6).2.2.2) (f6 ▸ (hin d6 n6).2.2.2)
  obtain ⟨⟨p1, p2, p3⟩, ⟨p4, p5, p6⟩⟩ := b
  obtain ⟨⟨q1, q2, q3⟩, ⟨q4, q5, q6⟩⟩ := c
  simp only at x1 x2 x3 x4 x5 x6
  rw [x1, x2, x3, x4, x5, x6]

end bbox

/-- The constructor from flattened data keeps the three arrays, whatever the comparison. -/
theorem ofInit_keeps_arrays {α : Type} [LT α] [DecidableRel fun a b : α => a < b] [Zero α]
    (init : MeshBlobInit α) :
    (MeshBlob.ofInit init).verts = init.verts ∧ (MeshBlob.ofInit init).norms = init.norms ∧
      (MeshBlob.ofInit init).tris = init.tris := by
  unfold MeshBlob.ofInit
  cases h : init.verts <;> simp [h]

/-! ## Closed form of the loop bodies -/

section flatten_lemmas
variable {D F T : Type}

theorem foldl_nodeIdentity [Neg D] (K : Kernel D F T) (face_tri : Poly_Triangulation D)
    (o : TopAbs_Orientation) (l : List Nat) :
    ∀ st : MeshBlobInit F, l.foldl (nodeIdentity K face_tri o) st =
      ⟨st.verts ++ l.map (fun i => castXYZ K (face_tri.Node i)),
        st.norms ++ l.map (fun i => castXYZ K (orient o (face_tri.Normal i))), st.tris⟩ := by
  induction l with
  | nil => intro st; simp
  | cons i l ih =>
    intro st
    rw [List.foldl_cons, ih]
    simp [nodeIdentity, push_back, castXYZ, orient]

theorem foldl_nodeTransformed [Neg D] (K : Kernel D F T) (face_tri : Poly_Triangulation D)
    (trsf : T) (o : TopAbs_Orientation) (l : List Nat) :
    ∀ st : MeshBlobInit F, l.foldl (nodeTransformed K face_tri trsf o) st =
      ⟨st.verts ++ l.map (fun i => castXYZ K (K.PntTransformed (face_tri.Node i) trsf)),
        st.norms ++
          l.map (fun i => castXYZ K (orient o (K.DirTransformed (face_tri.Normal i) trsf))),
        st.tris⟩ := by
  induction l with
  | nil => intro st; simp
  | cons i l ih =>
    intro st
    rw [List.foldl_cons, ih]
    simp [nodeTransformed, push_back, castXYZ, orient]

theorem foldl_triangleBody (face_tri : Poly_Triangulation D) (vert_start : Nat) (l : List Nat) :
    ∀ st : MeshBlobInit F, l.foldl (triangleBody face_tri vert_start) st =
      ⟨st.verts, st.norms,
        st.tris ++ l.map (fun i => globalTriangle vert_start (face_tri.Triangle i))⟩ := by
  induction l with
  | nil => intro st; simp
  | cons i l ih =>
    intro st
    rw [List.foldl_cons, ih]
    simp [triangleBody, push_back, globalTriangle]

/-- One pass of the face loop appends the face's vertices, normals and triangles, the
triangles offset by the vertex count read before the node loop. -/
theorem faceBody_eq [Neg D] (K : Kernel D F T) (st : MeshBlobInit F) (face : TopoDS_Face D T) :
    faceBody K st face =
      ⟨st.verts ++ faceVerts K face, st.norms ++ faceNorms K face,
        st.tris ++ faceTris (u32OfSize st.verts.length) face⟩ := by
  unfold faceBody faceVerts faceNorms faceTris localTriangles
  cases hT : face.Triangulation with
  | none => simp
  | some face_tri =>
    by_cases hn : face_tri.NbTriangles < 1
    · have : face_tri.NbTriangles = 0 := by omega
      simp [this]
    · cases hN : face_tri.HasNormals <;> cases hI : face.loc.IsIdentity <;>
        simp [hn, hN, hI, foldl_nodeIdentity, foldl_nodeTransformed, foldl_triangleBody,
          placedNode, placedNormal, kernelNormal, Poly_Triangulation.ComputeNormals,
          List.map_map, Function.comp_def]

theorem skipped_faceVerts (K : Kernel D F T) (face : TopoDS_Face D T)
    (h : skipped face = true) : faceVerts K face = [] := by
  unfold skipped at h
  unfold faceVerts
  cases hT : face.Triangulation with
  | none => rfl
  | some face_tri => rw [hT] at h; simp at h; simp; intro h2; omega

theorem skipped_faceNorms [Neg D] (K : Kernel D F T) (face : TopoDS_Face D T)
    (h : skipped face = true) : faceNorms K face = [] := by
  unfold skipped at h
  unfold faceNorms
  cases hT : face.Triangulation with
  | none => rfl
  | some face_tri => rw [hT] at h; simp at h; simp; intro h2; omega

theorem skipped_localTriangles (face : TopoDS_Face D T) (h : skipped face = true) :
    localTriangles face = [] := by
  unfold skipped at h
  unfold localTriangles
  cases hT : face.Triangulation with
  | none => rfl
  | some face_tri => rw [hT] at h; simp at h; simp [h]

/-- A skipped face leaves the three vectors as they are. -/
theorem faceBody_skipped [Neg D] (K : Kernel D F T) (st : MeshBlobInit F)
    (face : TopoDS_Face D T) (h : skipped face = true) : faceBody K st face = st := by
  rw [faceBody_eq, skipped_faceVerts K face h, skipped_faceNorms K face h]
  simp [faceTris, skipped_localTriangles face h]

theorem length_faceVerts (K : Kernel D F T) (face : TopoDS_Face D T)
    (h : skipped face = false) : (faceVerts K face).length = nodeCount face := by
  unfold skipped at h
  unfold faceVerts nodeCount
  cases hT : face.Triangulation with
  | none => rw [hT] at h; simp at h
  | some face_tri => rw [hT] at h; simp at h; simp [h]

theorem length_faceVerts_le (K : Kernel D F T) (face : TopoDS_Face D T) :
    (faceVerts K face).length ≤ nodeCount face := by
  cases h : skipped face
  · exact le_of_eq (length_faceVerts K face h)
  · simp [skipped_faceVerts K face h]

theorem length_faceNorms [Neg D] (K : Kernel D F T) (face : TopoDS_Face D T) :
    (faceNorms K face).length = (faceVerts K face).length := by
  unfold faceNorms faceVerts
  cases face.Triangulation with
  | none => rfl
  | some face_tri => by_cases h : face_tri.NbTriangles < 1 <;> simp [h]

/-- The loop over `A ++ B` is the loop over `B` continued from the state after `A`. -/
theorem flatten_append [Neg D] (K : Kernel D F T) (A B : List (TopoDS_Face D T)) :
    flatten K (A ++ B) = B.foldl (faceBody K) (flatten K A) := by
  simp [flatten, List.foldl_append]

/-- The loop only ever appends: what a state holds stays at the front. -/
theorem foldl_faceBody_extends [Neg D] (K : Kernel D F T) (l : List (TopoDS_Face D T)) :
    ∀ st : MeshBlobInit F, st.verts <+: (l.foldl (faceBody K) st).verts ∧
      st.norms <+: (l.foldl (faceBody K) st).norms ∧
      st.tris <+: (l.foldl (faceBody K) st).tris := by
  induction l with
  | nil => intro st; simp
  | cons f l ih =>
    intro st
    obtain ⟨h1, h2, h3⟩ := ih (faceBody K st f)
    have e := faceBody_eq K st f
    have v : st.verts <+: (faceBody K st f).verts := by rw [e]; exact List.prefix_append _ _
    have n : st.norms <+: (faceBody K st f).norms := by rw [e]; exact List.prefix_append _ _
    have t : st.tris <+: (faceBody K st f).tris := by rw [e]; exact List.prefix_append _ _
    rw [List.foldl_cons]
    exact ⟨v.trans h1, n.trans h2, t.trans h3⟩

/-- Sum of two `std::uint32_t` conversions, when the exact value fits. -/
theorem globalIndex_exact (n : Nat) (a : Int) (h1 : 1 ≤ (n : Int) + a)
    (h2 : (n : Int) + a ≤ 2 ^ 32) :
    ((u32Add (u32OfSize n) (u32OfInt (a - 1)) : Nat) : Int) = n + a - 1 := by
  unfold u32Add u32OfSize u32OfInt
  omega

/-- Invariant of the face loop behind C4. -/
theorem foldl_faceBody_indicesBelow [Neg D] (K : Kernel D F T) (l : List (TopoDS_Face D T)) :
    ∀ st : MeshBlobInit F, IndicesBelow st → st.verts.length + totalNodes l < 2 ^ 32 →
      (∀ f ∈ l, IndicesInRange f) → IndicesBelow (l.foldl (faceBody K) st) := by
  induction l with
  | nil => intro st h _ _; simpa using h
  | cons f l ih =>
    intro st hst hsz hrange
    have htot : totalNodes (f :: l) = nodeCount f + totalNodes l := by simp [totalNodes]
    have hlen := length_faceVerts_le K f
    rw [List.foldl_cons]
    apply ih
    · rw [faceBody_eq]
      intro t ht
      simp only [List.mem_append, List.length_append] at ht ⊢
      rcases ht with ht | ht
      · have := hst t ht
        omega
      · cases hs : skipped f
        · rw [length_faceVerts K f hs]
          simp only [faceTris, List.mem_map] at ht
          obtain ⟨idx, hidx, rfl⟩ := ht
          obtain ⟨⟨a1, a2⟩, ⟨b1, b2⟩, c1, c2⟩ :=
            hrange f (List.mem_cons_self _ _) idx hidx
          have ea := globalIndex_exact st.verts.length idx.1 (by omega) (by omega)
          have eb := globalIndex_exact st.verts.length idx.2.1 (by omega) (by omega)
          have ec := globalIndex_exact st.verts.length idx.2.2 (by omega) (by omega)
          simp only [globalTriangle]
          omega
        · simp [faceTris, skipped_localTriangles f hs] at ht
    · rw [faceBody_eq]
      simp only [List.length_append]
      omega
    · intro g hg
      exact hrange g (List.mem_cons_of_mem _ hg)

/-- Invariant of the face loop behind C5. -/
theorem foldl_faceBody_lengths [Neg D] (K : Kernel D F T) (l : List (TopoDS_Face D T)) :
    ∀ st : MeshBlobInit F, st.norms.length = st.verts.length →
      (l.foldl (faceBody K) st).norms.length = (l.foldl (faceBody K) st).verts.length := by
  induction l with
  | nil => intro st h; simpa using h
  | cons f l ih =>
    intro st h
    rw [List.foldl_cons]
    apply ih
    rw [faceBody_eq]
    simp [h, length_faceNorms]

/-- Dropping the skipped faces does not change what the loop does from any state. -/
theorem foldl_faceBody_filter [Neg D] (K : Kernel D F T) (l : List (TopoDS_Face D T)) :
    ∀ st : MeshBlobInit F,
      l.foldl (faceBody K) st = (l.filter fun f => !skipped f).foldl (faceBody K) st := by
  induction l with
  | nil => intro st; rfl
  | cons f l ih =>
    intro st
    cases hs : skipped f
    · simp [List.filter_cons, hs, ih]
    · simp [List.filter_cons, hs, faceBody_skipped K st f hs, ih]

theorem faceVerts_congr (K : Kernel D F T) (f g : TopoDS_Face D T)
    (h : SameButOrientation f g) : faceVerts K f = faceVerts K g := by
  unfold faceVerts placedNode
  rw [h.1, h.2]

theorem localTriangles_congr (f g : TopoDS_Face D T) (h : SameButOrientation f g) :
    localTriangles f = localTriangles g := by
  unfold localTriangles
  rw [h.1]

/-- Invariant of the face loop behind C8. -/
theorem foldl_faceBody_sameButOrientation [Neg D] (K : Kernel D F T)
    (fs gs : List (TopoDS_Face D T)) (h : List.Forall₂ SameButOrientation fs gs) :
    ∀ st st2 : MeshBlobInit F, st.verts = st2.verts → st.tris = st2.tris →
      (fs.foldl (faceBody K) st).verts = (gs.foldl (faceBody K) st2).verts ∧
        (fs.foldl (faceBody K) st).tris = (gs.foldl (faceBody K) st2).tris := by
  induction h with
  | nil => intro st st2 hv ht; exact ⟨hv, ht⟩
  | cons hfg _ ih =>
    intro st st2 hv ht
    rw [List.foldl_cons, List.foldl_cons]
    apply ih
    · rw [faceBody_eq, faceBody_eq]
      simp [hv, faceVerts_congr K _ _ hfg]
    · rw [faceBody_eq, faceBody_eq]
      simp [hv, ht, faceTris, localTriangles_congr _ _ hfg]

/-- The number of vertices the loop adds is the node count of the faces not skipped. -/
theorem foldl_faceBody_verts_length [Neg D] (K : Kernel D F T) (l : List (TopoDS_Face D T)) :
    ∀ st : MeshBlobInit F, (l.foldl (faceBody K) st).verts.length =
      st.verts.length + totalNodes (l.filter fun f => !skipped f) := by
  induction l with
  | nil => intro st; simp [totalNodes]
  | cons f l ih =>
    intro st
    rw [List.foldl_cons, ih, faceBody_eq]
    cases hs : skipped f
    · simp [List.filter_cons, hs, totalNodes, length_faceVerts K f hs, Nat.add_assoc]
    · simp [List.filter_cons, hs, totalNodes, skipped_faceVerts K f hs]

theorem flatten_verts_length [Neg D] (K : Kernel D F T) (l : List (TopoDS_Face D T)) :
    (flatten K l).verts.length = totalNodes (l.filter fun f => !skipped f) := by
  simpa using foldl_faceBody_verts_length K l (⟨[], [], []⟩ : MeshBlobInit F)

/-- What the face `f` appends stays in place behind the output for `pre`. -/
theorem flatten_face_block [Neg D] (K : Kernel D F T) (pre : List (TopoDS_Face D T))
    (f : TopoDS_Face D T) (post : List (TopoDS_Face D T)) :
    (flatten K pre).verts ++ faceVerts K f <+: (flatten K (pre ++ f :: post)).verts ∧
      (flatten K pre).norms ++ faceNorms K f <+: (flatten K (pre ++ f :: post)).norms ∧
      (flatten K pre).tris ++ faceTris (u32OfSize (flatten K pre).verts.length) f <+:
        (flatten K (pre ++ f :: post)).tris := by
  have h := foldl_faceBody_extends K post (faceBody K (flatten K pre) f)
  rw [flatten_append, List.foldl_cons]
  have e := faceBody_eq K (flatten K pre) f
  obtain ⟨h1, h2, h3⟩ := h
  refine ⟨?_, ?_, ?_⟩
  · have : (faceBody K (flatten K pre) f).verts = (flatten K pre).verts ++ faceVerts K f := by
      rw [e]
    rw [← this]; exact h1
  · have : (faceBody K (flatten K pre) f).norms = (flatten K pre).norms ++ faceNorms K f := by
      rw [e]
    rw [← this]; exact h2
  · have : (faceBody K (flatten K pre) f).tris =
        (flatten K pre).tris ++ faceTris (u32OfSize (flatten K pre).verts.length) f := by
      rw [e]
    rw [← this]; exact h3

/-- When every face is skipped the three vectors stay empty. -/
theorem flatten_all_skipped [Neg D] (K : Kernel D F T) (faces : List (TopoDS_Face D T))
    (h : ∀ f ∈ faces, skipped f = true) :
    flatten K faces = (⟨[], [], []⟩ : MeshBlobInit F) := by
  have e : (faces.filter fun f => !skipped f) = [] := by
    rw [List.filter_eq_nil_iff]
    intro f hf
    simp [h f hf]
  have := foldl_faceBody_filter K faces (⟨[], [], []⟩ : MeshBlobInit F)
  rw [e] at this
  exact this

/-- The vertices of the output are the vertices of the faces, face after face. -/
theorem foldl_faceBody_verts [Neg D] (K : Kernel D F T) (l : List (TopoDS_Face D T)) :
    ∀ st : MeshBlobInit F,
      (l.foldl (faceBody K) st).verts = st.verts ++ l.flatMap (faceVerts K) := by
  induction l with
  | nil => intro st; simp
  | cons f l ih =>
    intro st
    rw [List.foldl_cons, ih, faceBody_eq]
    simp [List.flatMap_cons]

/-- The normals of the output are the normals of the faces, face after face. -/
theorem foldl_faceBody_norms [Neg D] (K : Kernel D F T) (l : List (TopoDS_Face D T)) :
    ∀ st : MeshBlobInit F,
      (l.foldl (faceBody K) st).norms = st.norms ++ l.flatMap (faceNorms K) := by
  induction l with
  | nil => intro st; simp
  | cons f l ih =>
    intro st
    rw [List.foldl_cons, ih, faceBody_eq]
    simp [List.flatMap_cons]

theorem flatten_verts [Neg D] (K : Kernel D F T) (l : List (TopoDS_Face D T)) :
    (flatten K l).verts = l.flatMap (faceVerts K) := by
  simpa using foldl_faceBody_verts K l (⟨[], [], []⟩ : MeshBlobInit F)

theorem flatten_norms [Neg D] (K : Kernel D F T) (l : List (TopoDS_Face D T)) :
    (flatten K l).norms = l.flatMap (faceNorms K) := by
  simpa using foldl_faceBody_norms K l (⟨[], [], []⟩ : MeshBlobInit F)

/-- The number of triangles the loop adds is the number of local triangles of the faces. -/
theorem foldl_faceBody_tris_length [Neg D] (K : Kernel D F T) (l : List (TopoDS_Face D T)) :
    ∀ st : MeshBlobInit F, (l.foldl (faceBody K) st).tris.length =
      st.tris.length + (l.map fun f => (localTriangles f).length).sum := by
  induction l with
  | nil => intro st; simp
  | cons f l ih =>
    intro st
    rw [List.foldl_cons, ih, faceBody_eq]
    simp [faceTris, Nat.add_assoc]

theorem flatten_tris_length [Neg D] (K : Kernel D F T) (l : List (TopoDS_Face D T)) :
    (flatten K l).tris.length = (l.map fun f => (localTriangles f).length).sum := by
  simpa using foldl_faceBody_tris_length K l (⟨[], [], []⟩ : MeshBlobInit F)

theorem length_localTriangles (face : TopoDS_Face D T) :
    (localTriangles face).length = triangleCount face := by
  unfold localTriangles triangleCount
  cases face.Triangulation <;> simp

theorem skipped_triangleCount (face : TopoDS_Face D T) (h : skipped face = true) :
    triangleCount face = 0 := by
  rw [← length_localTriangles, skipped_localTriangles face h]
  rfl

/-- Triangle counts summed over all faces or over the kept faces only. -/
theorem sum_triangleCount_kept (l : List (TopoDS_Face D T)) :
    ((kept l).map triangleCount).sum = (l.map triangleCount).sum := by
  induction l with
  | nil => rfl
  | cons f l ih =>
    unfold kept at ih ⊢
    cases hs : skipped f
    · simp [List.filter_cons, hs, ih]
    · simp [List.filter_cons, hs, ih, skipped_triangleCount f hs]

/-- The loop on all faces and on the kept faces gives the same vertex array. -/
theorem flatten_verts_kept [Neg D] (K : Kernel D F T)
    (faces : List (TopoDS_Face D T)) :
    (flatten K faces).verts = (flatten K (kept faces)).verts := by
  have h : flatten K faces = flatten K (kept faces) :=
    foldl_faceBody_filter K faces ⟨[], [], []⟩
  rw [← h]

/-- The triangles of the output, with the running offsets. -/
theorem foldl_faceBody_tris [Neg D] (K : Kernel D F T) (l : List (TopoDS_Face D T)) :
    ∀ st : MeshBlobInit F,
      (l.foldl (faceBody K) st).tris = st.tris ++ trisFrom K st.verts.length l := by
  induction l with
  | nil => intro st; simp [trisFrom]
  | cons f l ih =>
    intro st
    rw [List.foldl_cons, ih, faceBody_eq]
    simp [trisFrom]

theorem flatten_tris [Neg D] (K : Kernel D F T) (l : List (TopoDS_Face D T)) :
    (flatten K l).tris = trisFrom K 0 l := by
  simpa using foldl_faceBody_tris K l (⟨[], [], []⟩ : MeshBlobInit F)

theorem totalNodes_cons (f : TopoDS_Face D T) (l : List (TopoDS_Face D T)) :
    totalNodes (f :: l) = nodeCount f + totalNodes l := by
  simp [totalNodes]

theorem totalNodes_append (A B : List (TopoDS_Face D T)) :
    totalNodes (A ++ B) = totalNodes A + totalNodes B := by
  simp [totalNodes]

theorem totalNodes_kept_le (l : List (TopoDS_Face D T)) :
    totalNodes (kept l) ≤ totalNodes l := by
  induction l with
  | nil => simp [kept]
  | cons f l ih =>
    unfold kept at ih ⊢
    cases hs : skipped f
    · simp only [List.filter_cons, hs, Bool.not_false, if_true, totalNodes_cons]
      omega
    · simp only [List.filter_cons, hs, Bool.not_true, totalNodes_cons]
      simp only [Bool.false_eq_true, if_false]
      omega

/-- The triangles of one face read at two offsets that differ by `m`, when nothing
wraps. -/
theorem faceTris_shift (K : Kernel D F T) (m n : Nat) (f : TopoDS_Face D T)
    (hr : IndicesInRange f) (hsz : m + n + (faceVerts K f).length < 2 ^ 32) :
    faceTris (u32OfSize (m + n)) f = (faceTris (u32OfSize n) f).map (Triangle.shift m) := by
  unfold faceTris
  rw [List.map_map]
  apply List.map_congr_left
  intro idx hidx
  cases hs : skipped f
  · have hlen := length_faceVerts K f hs
    obtain ⟨⟨a1, a2⟩, ⟨b1, b2⟩, c1, c2⟩ := hr idx hidx
    have ea := globalIndex_exact (m + n) idx.1 (by push_cast; omega) (by push_cast; omega)
    have eb := globalIndex_exact (m + n) idx.2.1 (by push_cast; omega) (by push_cast; omega)
    have ec := globalIndex_exact (m + n) idx.2.2 (by push_cast; omega) (by push_cast; omega)
    have fa := globalIndex_exact n idx.1 (by omega) (by omega)
    have fb := globalIndex_exact n idx.2.1 (by omega) (by omega)
    have fc := globalIndex_exact n idx.2.2 (by omega) (by omega)
    simp only [Function.comp, globalTriangle, Triangle.shift, Triangle.mk.injEq]
    push_cast at ea eb ec
    refine ⟨?_, ?_, ?_⟩ <;> omega
  · rw [skipped_localTriangles f hs] at hidx
    simp at hidx

/-- The triangles of a sequence of faces read after `m` more vertices, when nothing
wraps. -/
theorem trisFrom_shift (K : Kernel D F T) (m : Nat) (l : List (TopoDS_Face D T)) :
    ∀ n : Nat, (∀ f ∈ l, IndicesInRange f) → m + n + totalNodes l < 2 ^ 32 →
      trisFrom K (m + n) l = (trisFrom K n l).map (Triangle.shift m) := by
  induction l with
  | nil => intro n _ _; simp [trisFrom]
  | cons f l ih =>
    intro n hr hsz
    have hle := length_faceVerts_le K f
    rw [totalNodes_cons] at hsz
    simp only [trisFrom, List.map_append]
    rw [faceTris_shift K m n f (hr f (List.mem_cons_self _ _)) (by omega), Nat.add_assoc,
      ih (n + (faceVerts K f).length) (fun g hg => hr g (List.mem_cons_of_mem _ hg))
        (by omega)]

/-- Position `A.length + k` of a list that starts with `A ++ B`. -/
theorem getElem?_of_block {β : Type} {A B L : List β} (h : A ++ B <+: L) (k : Nat)
    (hk : k < B.length) : L[A.length + k]? = B[k]? := by
  obtain ⟨r, rfl⟩ := h
  rw [List.append_assoc, List.getElem?_append_right (by omega),
    List.getElem?_append_left (by omega)]
  congr 1
  omega

end flatten_lemmas

/-! ## Views of the accessors -/

theorem readVertices_scalars {α : Type} (V : List (Vertex α)) :
    readVertices (V.flatMap Vertex.scalars) = V := by
  induction V with
  | nil => rfl
  | cons v V ih =>
    rw [List.flatMap_cons]
    show readVertices (v.x :: v.y :: v.z :: V.flatMap Vertex.scalars) = v :: V
    rw [readVertices, ih]

theorem readTriangles_scalars (L : List Triangle) :
    readTriangles (L.flatMap Triangle.scalars) = L := by
  induction L with
  | nil => rfl
  | cons t L ih =>
    rw [List.flatMap_cons]
    show readTriangles (t.x :: t.y :: t.z :: L.flatMap Triangle.scalars) = t :: L
    rw [readTriangles, ih]

theorem length_vertex_scalars {α : Type} (V : List (Vertex α)) :
    (V.flatMap Vertex.scalars).length = 3 * V.length := by
  induction V with
  | nil => rfl
  | cons v V ih =>
    rw [List.flatMap_cons, List.length_append, ih]
    simp [Vertex.scalars]
    omega

theorem length_triangle_scalars (L : List Triangle) :
    (L.flatMap Triangle.scalars).length = 3 * L.length := by
  induction L with
  | nil => rfl
  | cons t L ih =>
    rw [List.flatMap_cons, List.length_append, ih]
    simp [Triangle.scalars]
    omega

/-! ## Failure of a construction step -/

/-- The function returns nothing exactly when some construction step fails. -/
theorem stepFails_iff {E S T F : Type} [LT F] [DecidableRel fun a b : F => a < b] [Zero F]
    (M : Modeller E S T) (K : Kernel ℚ F T) (w t h : ℚ) :
    StepFails M w t h ↔ make_flask M K w t h = none := by
  unfold StepFails make_flask solid extrude
  cases h1 : profile M w t with
  | error e => simp [bind, Except.bind]
  | ok wire =>
    cases h2 : M.MakeFace wire with
    | error e => simp [bind, Except.bind, h2]
    | ok face =>
      cases h3 : M.MakePrism face ⟨0.0, h, 0.0⟩ with
      | error e => simp [bind, Except.bind, h2, h3]
      | ok body =>
        cases h4 : fillet M body t with
        | error e => simp [bind, Except.bind, h2, h3, h4]
        | ok filleted =>
          cases h5 : fuseNeck M filleted t h with
          | error e => simp [bind, Except.bind, h2, h3, h4, h5]
          | ok fused => simp [bind, Except.bind, h2, h3, h4, h5]

/-! ## The mesh container: bounding box and placeholder -/

/-- C1: for every non-empty vertex array handed to the constructor `MeshBlob(MeshBlobInit)`
the box is tight: every vertex of the array lies between `bbox.min` and `bbox.max` in each
component, and each of the six bounds is the matching coordinate of some vertex of the
array. -/
theorem bbox_tight_of_nonempty {α : Type} [LinearOrder α] [Zero α] (init : MeshBlobInit α)
    (h : init.verts ≠ []) :
    (∀ v ∈ (MeshBlob.ofInit init).verts, Inside (MeshBlob.ofInit init).bbox v) ∧
      Attained (MeshBlob.ofInit init).bbox (MeshBlob.ofInit init).verts := by
  rw [(ofInit_arrays init).1]
  exact ofInit_tight init h

/-- Witness for C1 on a two-vertex array over the integers. -/
theorem bbox_tight_of_nonempty_witness :
    fixtureInit.verts ≠ [] ∧
      ((∀ v ∈ (MeshBlob.ofInit fixtureInit).verts, Inside (MeshBlob.ofInit fixtureInit).bbox v) ∧
        Attained (MeshBlob.ofInit fixtureInit).bbox (MeshBlob.ofInit fixtureInit).verts) :=
  ⟨by decide, bbox_tight_of_nonempty fixtureInit (by decide)⟩

/-- C2: the default-constructed `MeshBlob` has exactly three vertices, exactly three
normals, all equal to the axis `(0, 0, 1)`, exactly one triangle with indices `(0, 1, 2)` in
that order, and both corners of its box at the origin. -/
theorem default_placeholder :
    MeshBlob.default.verts.length = 3 ∧ MeshBlob.default.norms.length = 3 ∧
      MeshBlob.default.norms = [⟨0, 0, 1⟩, ⟨0, 0, 1⟩, ⟨0, 0, 1⟩] ∧
      MeshBlob.default.tris.length = 1 ∧ MeshBlob.default.tris = [⟨0, 1, 2⟩] ∧
      MeshBlob.default.bbox.min = ⟨0, 0, 0⟩ ∧ MeshBlob.default.bbox.max = ⟨0, 0, 0⟩ := by
  refine ⟨rfl, rfl, ?_, rfl, rfl, rfl, rfl⟩
  simp [MeshBlob.default, MeshBlob.Impl, push_back]
  norm_num

/-- The placeholder does not satisfy the invariant: its box is the zero box, while its
first vertex has `x = -0.5`, below `bbox.min.x = 0`. -/
theorem default_bbox_not_tight : ¬ BboxInvariant MeshBlob.default := by
  intro h
  have hne : MeshBlob.default.verts ≠ [] := by
    simp [MeshBlob.default, MeshBlob.Impl, push_back]
  have := (h.2 hne).1 ⟨-0.5, -0.5, 0.0⟩ (by simp [MeshBlob.default, MeshBlob.Impl, push_back])
  have hx := this.1.1
  simp [MeshBlob.default, MeshBlob.Impl] at hx
  norm_num at hx

/-- C3, as stated, fails in both construction modes.  The placeholder has the zero box
although its first vertex has `x = -0.5`.  On flattened data with a NaN in `verts[0]` every
comparison of lines 95-123 is false, the NaN stays as both bounds in `x`, and the vertex
`(1, 0, 0)` of the same array is not inside the box. -/
theorem bbox_invariant_fails :
    ¬ BboxInvariant MeshBlob.default ∧
      ((MeshBlob.ofInit fixtureNaNInit).bbox.min.x = FloatValue.NaN ∧
        (MeshBlob.ofInit fixtureNaNInit).bbox.max.x = FloatValue.NaN ∧
        ¬ Inside (MeshBlob.ofInit fixtureNaNInit).bbox
          ⟨FloatValue.finite 1, FloatValue.finite 0, FloatValue.finite 0⟩ ∧
        ¬ BboxInvariant (MeshBlob.ofInit fixtureNaNInit)) := by
  refine ⟨default_bbox_not_tight, by decide, by decide, by unfold Inside; decide, ?_⟩
  intro h
  have hin := (h.2 (by decide)).1
    ⟨FloatValue.finite 1, FloatValue.finite 0, FloatValue.finite 0⟩ (by decide)
  revert hin
  unfold Inside
  decide

/-- C3, amended: with coordinates that are totally ordered values (so without NaN), every
`MeshBlob` built from flattened data has the tight box of its own vertex array, or the
zero box when that array is empty; the placeholder keeps the zero box of `Impl()`. -/
theorem bbox_invariant_ofInit {α : Type} [LinearOrder α] [Zero α] (init : MeshBlobInit α) :
    BboxInvariant (MeshBlob.ofInit init) ∧
      MeshBlob.default.bbox = { min := ⟨0, 0, 0⟩, max := ⟨0, 0, 0⟩ } := by
  refine ⟨⟨?_, ?_⟩, rfl⟩
  · intro h
    rw [(ofInit_arrays init).1] at h
    exact ofInit_empty init h
  · intro h
    rw [(ofInit_arrays init).1] at h ⊢
    exact ofInit_tight init h

/-! ## The flattening loop -/

/-- C4: when the triangle indices of every face lie in `1 .. NbNodes` of that face and the
total node count is below `2 ^ 32`, every index of every triangle the loop emits is
strictly below the number of vertices it emits. -/
theorem emitted_indices_below_vertex_count {D F T : Type} [Neg D] (K : Kernel D F T)
    (faces : List (TopoDS_Face D T)) (hrange : ∀ f ∈ faces, IndicesInRange f)
    (hsize : totalNodes faces < 2 ^ 32) :
    ∀ t ∈ (flatten K faces).tris,
      t.x < (flatten K faces).verts.length ∧ t.y < (flatten K faces).verts.length ∧
        t.z < (flatten K faces).verts.length := by
  have h := foldl_faceBody_indicesBelow K faces ⟨[], [], []⟩ (by simp [IndicesBelow])
    (by simpa using hsize) hrange
  exact h

/-- Witness for C4 on faces A and B of the fixture. -/
theorem emitted_indices_below_vertex_count_witness :
    (∀ f ∈ [fixtureA, fixtureB], IndicesInRange f) ∧ totalNodes [fixtureA, fixtureB] < 2 ^ 32 ∧
      ∀ t ∈ (flatten fixtureKernel [fixtureA, fixtureB]).tris,
        t.x < (flatten fixtureKernel [fixtureA, fixtureB]).verts.length ∧
          t.y < (flatten fixtureKernel [fixtureA, fixtureB]).verts.length ∧
          t.z < (flatten fixtureKernel [fixtureA, fixtureB]).verts.length :=
  ⟨by unfold IndicesInRange; decide, by decide,
    emitted_indices_below_vertex_count fixtureKernel [fixtureA, fixtureB]
      (by unfold IndicesInRange; decide) (by decide)⟩

/-- C5: the loop emits as many normals as vertices, and the two counts are also equal
after each face, that is for the state reached on every initial segment of the faces. -/
theorem normals_count_eq_vertices_count {D F T : Type} [Neg D] (K : Kernel D F T)
    (faces : List (TopoDS_Face D T)) :
    (flatten K faces).norms.length = (flatten K faces).verts.length ∧
      ∀ k : Nat, (flatten K (faces.take k)).norms.length =
        (flatten K (faces.take k)).verts.length :=
  ⟨foldl_faceBody_lengths K faces ⟨[], [], []⟩ rfl,
    fun k => foldl_faceBody_lengths K (faces.take k) ⟨[], [], []⟩ rfl⟩

/-- C6, as stated, fails once the vertex count no longer fits `std::uint32_t`: after four
faces of `2 ^ 30` nodes `vert_start` is read as `0`, and face B is emitted as `(0, 1, 2)`
instead of `(2 ^ 32, 2 ^ 32 + 1, 2 ^ 32 + 2)`. -/
theorem offset_wraps_at_u32 :
    (flatten fixtureKernel [fixtureLarge, fixtureLarge, fixtureLarge, fixtureLarge]).verts.length
        = 2 ^ 32 ∧
      ¬ EmittedWithOffset fixtureKernel
        [fixtureLarge, fixtureLarge, fixtureLarge, fixtureLarge] fixtureB [] := by
  have hlen : (flatten fixtureKernel
      [fixtureLarge, fixtureLarge, fixtureLarge, fixtureLarge]).verts.length = 2 ^ 32 := by
    rw [flatten_verts_length]
    decide
  refine ⟨hlen, ?_⟩
  unfold EmittedWithOffset
  rw [flatten_append, List.foldl_cons, List.foldl_nil, faceBody_eq, hlen]
  simp only [List.map_append, List.prefix_append_right_inj]
  intro h
  have := List.IsPrefix.eq_of_length h (by decide)
  revert this
  decide

/-- C6, amended: whenever, for each index `a` of a local triangle of the face, the value
`vertex_start + a - 1` fits `std::uint32_t` (as it does when the indices lie in
`1 .. NbNodes` and the total node count is below `2 ^ 32`), each local triangle `(a, b, c)`
is emitted as `(vertex_start + a - 1, vertex_start + b - 1, vertex_start + c - 1)`, same
order of the three indices, triangles in their local order, `vertex_start` being the
number of vertices emitted by the preceding faces. -/
theorem triangles_offset_by_vertex_start {D F T : Type} [Neg D] (K : Kernel D F T)
    (pre : List (TopoDS_Face D T)) (f : TopoDS_Face D T) (post : List (TopoDS_Face D T))
    (hfit : ∀ t ∈ localTriangles f,
      FitsU32 (flatten K pre).verts.length t.1 ∧ FitsU32 (flatten K pre).verts.length t.2.1 ∧
        FitsU32 (flatten K pre).verts.length t.2.2) :
    EmittedWithOffset K pre f post := by
  unfold EmittedWithOffset
  have h := ((flatten_face_block K pre f post).2.2).map Triangle.toInts
  rw [List.map_append] at h
  have e : (faceTris (u32OfSize (flatten K pre).verts.length) f).map Triangle.toInts =
      (localTriangles f).map (fun t =>
        (((flatten K pre).verts.length : Int) + t.1 - 1,
          ((flatten K pre).verts.length : Int) + t.2.1 - 1,
          ((flatten K pre).verts.length : Int) + t.2.2 - 1)) := by
    unfold faceTris
    rw [List.map_map]
    apply List.map_congr_left
    intro t ht
    obtain ⟨⟨a1, a2⟩, ⟨b1, b2⟩, c1, c2⟩ := hfit t ht
    simp only [Function.comp, Triangle.toInts, globalTriangle, globalIndex_exact _ _ a1 a2,
      globalIndex_exact _ _ b1 b2, globalIndex_exact _ _ c1 c2]
  rw [e] at h
  exact h

/-- Witness for C6 (amended): face B of the fixture after face A, offset 4. -/
theorem triangles_offset_by_vertex_start_witness :
    (∀ t ∈ localTriangles fixtureB,
        FitsU32 (flatten fixtureKernel [fixtureA]).verts.length t.1 ∧
          FitsU32 (flatten fixtureKernel [fixtureA]).verts.length t.2.1 ∧
          FitsU32 (flatten fixtureKernel [fixtureA]).verts.length t.2.2) ∧
      EmittedWithOffset fixtureKernel [fixtureA] fixtureB [] :=
  ⟨by unfold FitsU32; decide,
    triangles_offset_by_vertex_start fixtureKernel [fixtureA] fixtureB []
      (by unfold FitsU32; decide)⟩

/-- C7: for a face that is not skipped, the normals the loop emits for it are, node by
node: when the orientation flag is reversed, the cast of the three components `-X`, `-Y`,
`-Z` of the placed normal `(X, Y, Z)`; otherwise the cast of `X`, `Y`, `Z` themselves.  The
placed normal is the kernel-reported normal under the identity location and its transform
under any other location, so this covers both branches of the node loop. -/
theorem normals_follow_orientation {D F T : Type} [Neg D] (K : Kernel D F T)
    (pre : List (TopoDS_Face D T)) (f : TopoDS_Face D T) (post : List (TopoDS_Face D T))
    (face_tri : Poly_Triangulation D) (hT : f.Triangulation = some face_tri)
    (hn : ¬ face_tri.NbTriangles < 1) :
    (f.Orientation = TopAbs_Orientation.TopAbs_REVERSED →
        (flatten K pre).norms ++ (List.range' 1 face_tri.NbNodes).map
            (fun i => (⟨K.toFloat (-(placedNormal K f face_tri i).X),
              K.toFloat (-(placedNormal K f face_tri i).Y),
              K.toFloat (-(placedNormal K f face_tri i).Z)⟩ : Vertex F)) <+:
          (flatten K (pre ++ f :: post)).norms) ∧
      (f.Orientation ≠ TopAbs_Orientation.TopAbs_REVERSED →
        (flatten K pre).norms ++ (List.range' 1 face_tri.NbNodes).map
            (fun i => (⟨K.toFloat (placedNormal K f face_tri i).X,
              K.toFloat (placedNormal K f face_tri i).Y,
              K.toFloat (placedNormal K f face_tri i).Z⟩ : Vertex F)) <+:
          (flatten K (pre ++ f :: post)).norms) := by
  have h := (flatten_face_block K pre f post).2.1
  unfold faceNorms at h
  rw [hT] at h
  simp only [hn, if_false] at h
  constructor
  · intro ho
    simpa [orient, ho, castXYZ, gp_XYZ.Reverse] using h
  · intro ho
    simpa [orient, ho, castXYZ] using h

/-- Witness for C7: face B of the fixture (reversed, translated, kernel normal
`(0, 5, 0)`) after face A: its three normals are emitted as `(0, -5, 0)`. -/
theorem normals_follow_orientation_witness :
    (fixtureB.Triangulation = some fixtureTriB ∧ ¬ fixtureTriB.NbTriangles < 1 ∧
        fixtureB.Orientation = TopAbs_Orientation.TopAbs_REVERSED) ∧
      ((flatten fixtureKernel [fixtureA]).norms ++ (List.range' 1 fixtureTriB.NbNodes).map
          (fun i =>
            (⟨fixtureKernel.toFloat (-(placedNormal fixtureKernel fixtureB fixtureTriB i).X),
              fixtureKernel.toFloat (-(placedNormal fixtureKernel fixtureB fixtureTriB i).Y),
              fixtureKernel.toFloat (-(placedNormal fixtureKernel fixtureB fixtureTriB i).Z)⟩ :
                Vertex ℤ)) <+:
        (flatten fixtureKernel ([fixtureA] ++ fixtureB :: [])).norms) ∧
      (flatten fixtureKernel ([fixtureA] ++ fixtureB :: [])).norms.drop 4 =
        [⟨0, -5, 0⟩, ⟨0, -5, 0⟩, ⟨0, -5, 0⟩] :=
  ⟨⟨rfl, by decide, rfl⟩,
    (normals_follow_orientation fixtureKernel [fixtureA] fixtureB [] fixtureTriB rfl
      (by decide)).1 rfl,
    by decide⟩

/-- C8: two sequences of faces that differ only in the orientation flags give the same
vertex array and the same triangle array. -/
theorem orientation_changes_normals_only {D F T : Type} [Neg D] (K : Kernel D F T)
    (fs gs : List (TopoDS_Face D T)) (h : List.Forall₂ SameButOrientation fs gs) :
    (flatten K fs).verts = (flatten K gs).verts ∧ (flatten K fs).tris = (flatten K gs).tris :=
  foldl_faceBody_sameButOrientation K fs gs h ⟨[], [], []⟩ ⟨[], [], []⟩ rfl rfl

/-- Witness for C8: the fixture with face B reversed and with face B forward. -/
theorem orientation_changes_normals_only_witness :
    List.Forall₂ SameButOrientation [fixtureA, fixtureB] [fixtureA, fixtureBForward] ∧
      ((flatten fixtureKernel [fixtureA, fixtureB]).verts =
          (flatten fixtureKernel [fixtureA, fixtureBForward]).verts ∧
        (flatten fixtureKernel [fixtureA, fixtureB]).tris =
          (flatten fixtureKernel [fixtureA, fixtureBForward]).tris) :=
  ⟨.cons ⟨rfl, rfl⟩ (.cons ⟨rfl, rfl⟩ .nil),
    orientation_changes_normals_only fixtureKernel _ _
      (.cons ⟨rfl, rfl⟩ (.cons ⟨rfl, rfl⟩ .nil))⟩

/-- C9: faces with a null triangulation or fewer than one triangle contribute nothing: the
loop emits the same vertices, normals and triangles as on the sequence without them. -/
theorem skipped_faces_contribute_nothing {D F T : Type} [Neg D] (K : Kernel D F T)
    (faces : List (TopoDS_Face D T)) :
    (flatten K faces).verts = (flatten K (faces.filter fun f => !skipped f)).verts ∧
      (flatten K faces).norms = (flatten K (faces.filter fun f => !skipped f)).norms ∧
      (flatten K faces).tris = (flatten K (faces.filter fun f => !skipped f)).tris := by
  have h : flatten K faces = flatten K (faces.filter fun f => !skipped f) :=
    foldl_faceBody_filter K faces ⟨[], [], []⟩
  rw [← h]
  exact ⟨rfl, rfl, rfl⟩

/-! ## Failure handling of `make_flask` -/

/-- With a kernel whose fillet cannot be built, a construction step fails and
`make_flask` returns no `MeshBlob` at all, so not one with empty arrays. -/
theorem failing_fillet_returns_nothing :
    StepFails filletFailsModeller 1 1 1 ∧
      ¬ ∃ blob, make_flask filletFailsModeller rationalKernel 1 1 1 = some blob ∧
        blob.IsEmpty := by
  refine ⟨Or.inr (Or.inr (Or.inr (Or.inl ⟨_, (), rfl, rfl⟩))), ?_⟩
  have h : make_flask filletFailsModeller rationalKernel 1 1 1 = none := rfl
  rw [h]
  simp

/-- The function `make_flask` has no failure path.  It returns no `MeshBlob` exactly when
a construction step (wire, face, prism, fillet or fuse) fails; when none fails it returns
the `MeshBlob` of the flattened faces of the fused body, and that one has three empty
arrays and the zero box when every face of the body is skipped. -/
theorem make_flask_has_no_failure_path {E S T F : Type} [LinearOrder F] [Zero F]
    (M : Modeller E S T) (K : Kernel ℚ F T) (width thickness height : ℚ) :
    (StepFails M width thickness height ↔ make_flask M K width thickness height = none) ∧
      ∀ body, solid M width thickness height = .ok body →
        make_flask M K width thickness height =
            some (MeshBlob.ofInit (flatten K (M.Faces body))) ∧
          ((∀ f ∈ M.Faces body, skipped f = true) →
            ∃ blob, make_flask M K width thickness height = some blob ∧ blob.IsEmpty ∧
              blob.bbox = { min := ⟨0, 0, 0⟩, max := ⟨0, 0, 0⟩ }) := by
  refine ⟨stepFails_iff M K width thickness height, ?_⟩
  intro body hbody
  have e : make_flask M K width thickness height =
      some (MeshBlob.ofInit (flatten K (M.Faces body))) := by
    unfold make_flask
    rw [hbody]
  refine ⟨e, ?_⟩
  intro hskip
  refine ⟨_, e, ?_⟩
  rw [flatten_all_skipped K (M.Faces body) hskip]
  exact ⟨⟨rfl, rfl, rfl⟩, rfl⟩

/-- The symbolic kernel, where every step succeeds and the one
face has no triangulation, gives a `MeshBlob` with empty arrays and the zero box. -/
theorem make_flask_has_no_failure_path_witness :
    ∃ blob, make_flask symbolicModeller rationalKernel 1 1 1 = some blob ∧ blob.IsEmpty ∧
      blob.bbox = { min := ⟨0, 0, 0⟩, max := ⟨0, 0, 0⟩ } :=
  ((make_flask_has_no_failure_path symbolicModeller rationalKernel 1 1 1).2 _ rfl).2
    (by intro f hf; rw [List.mem_singleton.mp hf]; rfl)

/-- The wire cannot be built when the first segment cannot. -/
theorem profile_fails_of_segment {E S T : Type} (M : Modeller E S T) (width thickness : ℚ)
    (e : E) (h : M.GC_MakeSegment (pts width thickness 0) (pts width thickness 1) = .error e) :
    ∃ e2, profile M width thickness = .error e2 := by
  unfold profile
  cases ha : M.GC_MakeArcOfCircle (pts width thickness 1) (pts width thickness 2)
      (pts width thickness 3) with
  | error e1 => exact ⟨e1, by simp [bind, Except.bind]⟩
  | ok arc => exact ⟨e, by simp [bind, Except.bind, h]⟩

/-- C10: the code at the failing input `thickness = 0`.  The claim asks for a `MeshBlob`
with empty arrays whenever a construction step fails.  At thickness `0` the two end
points `pts[0]` and `pts[1]` of the first segment coincide; for every kernel that cannot
build a segment between coincident points the wire step fails, and `make_flask`, having
no handler, returns no `MeshBlob` at all, so not one with empty arrays. -/
theorem make_flask_returns_nothing_at_zero_thickness {E S T F : Type} [LT F]
    [DecidableRel fun a b : F => a < b] [Zero F] (M : Modeller E S T) (K : Kernel ℚ F T)
    (width height : ℚ) (hseg : ∀ P : gp_XYZ ℚ, ∃ e, M.GC_MakeSegment P P = .error e) :
    pts width 0 0 = pts width 0 1 ∧ StepFails M width 0 height ∧
      make_flask M K width 0 height = none ∧
      ¬ ∃ blob, make_flask M K width 0 height = some blob ∧ blob.IsEmpty := by
  have hp : pts width 0 0 = pts width 0 1 := by
    simp [pts]
    norm_num
  obtain ⟨e, he⟩ := hseg (pts width 0 0)
  have hfail : StepFails M width 0 height := by
    refine Or.inl (profile_fails_of_segment M width 0 e ?_)
    rw [← hp]
    exact he
  have hnone := (stepFails_iff M K width 0 height).mp hfail
  refine ⟨hp, hfail, hnone, ?_⟩
  rw [hnone]
  simp

/-- Witness for C10: the symbolic kernel without segments between coincident points, at
`(1, 0, 1)`. -/
theorem make_flask_returns_nothing_at_zero_thickness_witness :
    (∀ P : gp_XYZ ℚ, ∃ e, coincidentFailsModeller.GC_MakeSegment P P = .error e) ∧
      pts 1 0 0 = pts 1 0 1 ∧ StepFails coincidentFailsModeller 1 0 1 ∧
      make_flask coincidentFailsModeller rationalKernel 1 0 1 = none ∧
      ¬ ∃ blob, make_flask coincidentFailsModeller rationalKernel 1 0 1 = some blob ∧
        blob.IsEmpty :=
  ⟨fun _ => ⟨(), by simp [coincidentFailsModeller]⟩,
    make_flask_returns_nothing_at_zero_thickness coincidentFailsModeller rationalKernel 1 1
      fun _ => ⟨(), by simp [coincidentFailsModeller]⟩⟩

/-! ## Aggregates, counts and order of the output -/

/-- C11, as stated, fails on the bounding box when a coordinate is NaN: the faces with the
single nodes `(1, 0, 0)` and `(NaN, 0, 0)` give `bbox.min.x = 1` in this order and
`bbox.min.x = NaN` in the other, since the loop of lines 95-123 keeps a NaN of `verts[0]`
and passes over a later one. -/
theorem bbox_depends_on_face_order_with_nan :
    [fixtureNode (FloatValue.finite 1), fixtureNode FloatValue.NaN].Perm
        [fixtureNode FloatValue.NaN, fixtureNode (FloatValue.finite 1)] ∧
      (MeshBlob.ofInit (flatten floatKernel
        [fixtureNode (FloatValue.finite 1), fixtureNode FloatValue.NaN])).bbox.min.x =
          FloatValue.finite 1 ∧
      (MeshBlob.ofInit (flatten floatKernel
        [fixtureNode FloatValue.NaN, fixtureNode (FloatValue.finite 1)])).bbox.min.x =
          FloatValue.NaN ∧
      (MeshBlob.ofInit (flatten floatKernel
        [fixtureNode (FloatValue.finite 1), fixtureNode FloatValue.NaN])).bbox ≠
      (MeshBlob.ofInit (flatten floatKernel
        [fixtureNode FloatValue.NaN, fixtureNode (FloatValue.finite 1)])).bbox :=
  ⟨List.Perm.swap _ _ _, by decide, by decide, by decide⟩

/-- C11, amended: for a sequence of faces and any permutation of it, the loop followed by
the constructor `MeshBlob(MeshBlobInit)` gives the same vertex count and the same triangle
count, whatever the comparison of the coordinates, and the same bounding box when the
coordinates are totally ordered values (so without NaN). -/
theorem aggregates_independent_of_face_order {D F T : Type} [Neg D]
    (K : Kernel D F T) (faces faces2 : List (TopoDS_Face D T)) (h : faces.Perm faces2) :
    (∀ [LT F] [DecidableRel fun a b : F => a < b] [Zero F],
      (MeshBlob.ofInit (flatten K faces)).verts.length =
          (MeshBlob.ofInit (flatten K faces2)).verts.length ∧
        (MeshBlob.ofInit (flatten K faces)).tris.length =
          (MeshBlob.ofInit (flatten K faces2)).tris.length) ∧
      ∀ [LinearOrder F] [Zero F],
        (MeshBlob.ofInit (flatten K faces)).bbox =
          (MeshBlob.ofInit (flatten K faces2)).bbox := by
  have hv : (flatten K faces).verts.Perm (flatten K faces2).verts := by
    rw [flatten_verts, flatten_verts]
    exact h.flatMap_right _
  have ht : (flatten K faces).tris.length = (flatten K faces2).tris.length := by
    rw [flatten_tris_length, flatten_tris_length]
    exact (h.map _).sum_eq
  constructor
  · intro i1 i2 i3
    rw [(ofInit_keeps_arrays _).1, (ofInit_keeps_arrays _).1, (ofInit_keeps_arrays _).2.2,
      (ofInit_keeps_arrays _).2.2]
    exact ⟨hv.length_eq, ht⟩
  · intro i1 i2
    by_cases he : (flatten K faces).verts = []
    · have he2 : (flatten K faces2).verts = [] := by
        have := hv.length_eq
        rw [he] at this
        exact List.length_eq_zero.mp this.symm
      rw [ofInit_empty _ he, ofInit_empty _ he2]
    · have he2 : (flatten K faces2).verts ≠ [] := by
        intro h0
        have := hv.length_eq
        rw [h0] at this
        exact he (List.length_eq_zero.mp this)
      exact TightBbox.unique (fun v => hv.mem_iff) (ofInit_tight _ he) (ofInit_tight _ he2)

/-- Witness for C11 (amended): faces A and B of the fixture in both orders. -/
theorem aggregates_independent_of_face_order_witness :
    [fixtureA, fixtureB].Perm [fixtureB, fixtureA] ∧
      ((MeshBlob.ofInit (flatten fixtureKernel [fixtureA, fixtureB])).verts.length =
          (MeshBlob.ofInit (flatten fixtureKernel [fixtureB, fixtureA])).verts.length ∧
        (MeshBlob.ofInit (flatten fixtureKernel [fixtureA, fixtureB])).tris.length =
          (MeshBlob.ofInit (flatten fixtureKernel [fixtureB, fixtureA])).tris.length) ∧
      (MeshBlob.ofInit (flatten fixtureKernel [fixtureA, fixtureB])).bbox =
        (MeshBlob.ofInit (flatten fixtureKernel [fixtureB, fixtureA])).bbox :=
  ⟨List.Perm.swap _ _ _,
    (aggregates_independent_of_face_order fixtureKernel _ _ (List.Perm.swap _ _ _)).1,
    (aggregates_independent_of_face_order fixtureKernel _ _ (List.Perm.swap _ _ _)).2⟩

/-- C12: when the constructor `MeshBlob(MeshBlobInit)` is given an empty vertex array,
whatever the normal and triangle arrays are, the box is exactly `min = (0, 0, 0)`,
`max = (0, 0, 0)`. -/
theorem bbox_zero_of_no_vertices {α : Type} [LinearOrder α] [Zero α]
    (norms : List (Vertex α)) (tris : List Triangle) :
    (MeshBlob.ofInit ⟨[], norms, tris⟩).bbox = { min := ⟨0, 0, 0⟩, max := ⟨0, 0, 0⟩ } :=
  ofInit_empty ⟨[], norms, tris⟩ rfl

/-- C13: for a `MeshBlob` built from arrays `V`, `N`, `T`, each shorter than `2 ^ 32`
entries, the counts of `verts()`, `norms()` and `tris()` are the numbers of entries of
`V`, `N` and `T`, the scalars behind each pointer are three per entry and read back as
exactly `V`, `N` and `T` in their order, and the state after a call of `bbox()`, `verts()`,
`norms()` or `tris()` is the state before it. -/
theorem accessors_view_the_arrays {α : Type} [LinearOrder α] [Zero α]
    (V N : List (Vertex α)) (T : List Triangle) (hV : V.length < 2 ^ 32)
    (hN : N.length < 2 ^ 32) (hT : T.length < 2 ^ 32) :
    ((MeshBlob.ofInit ⟨V, N, T⟩).getVerts.1.count = V.length ∧
        (MeshBlob.ofInit ⟨V, N, T⟩).getVerts.1.ptr.length = 3 * V.length ∧
        readVertices (MeshBlob.ofInit ⟨V, N, T⟩).getVerts.1.ptr = V) ∧
      ((MeshBlob.ofInit ⟨V, N, T⟩).getNorms.1.count = N.length ∧
        (MeshBlob.ofInit ⟨V, N, T⟩).getNorms.1.ptr.length = 3 * N.length ∧
        readVertices (MeshBlob.ofInit ⟨V, N, T⟩).getNorms.1.ptr = N) ∧
      ((MeshBlob.ofInit ⟨V, N, T⟩).getTris.1.count = T.length ∧
        (MeshBlob.ofInit ⟨V, N, T⟩).getTris.1.ptr.length = 3 * T.length ∧
        readTriangles (MeshBlob.ofInit ⟨V, N, T⟩).getTris.1.ptr = T) ∧
      ((MeshBlob.ofInit ⟨V, N, T⟩).getBbox.2 = MeshBlob.ofInit ⟨V, N, T⟩ ∧
        (MeshBlob.ofInit ⟨V, N, T⟩).getVerts.2 = MeshBlob.ofInit ⟨V, N, T⟩ ∧
        (MeshBlob.ofInit ⟨V, N, T⟩).getNorms.2 = MeshBlob.ofInit ⟨V, N, T⟩ ∧
        (MeshBlob.ofInit ⟨V, N, T⟩).getTris.2 = MeshBlob.ofInit ⟨V, N, T⟩) := by
  obtain ⟨e1, e2, e3⟩ := ofInit_arrays (⟨V, N, T⟩ : MeshBlobInit α)
  simp only at e1 e2 e3
  simp only [MeshBlob.getVerts, MeshBlob.getNorms, MeshBlob.getTris, MeshBlob.getBbox, e1, e2,
    e3, readVertices_scalars, readTriangles_scalars, length_vertex_scalars,
    length_triangle_scalars, u32OfSize, Nat.mod_eq_of_lt hV, Nat.mod_eq_of_lt hN,
    Nat.mod_eq_of_lt hT, and_self]

/-- Witness for C13 on two vertices, two normals and one triangle. -/
theorem accessors_view_the_arrays_witness :
    (fixtureArrays.verts.length < 2 ^ 32 ∧ fixtureArrays.norms.length < 2 ^ 32 ∧
        fixtureArrays.tris.length < 2 ^ 32) ∧
      (MeshBlob.ofInit fixtureArrays).getVerts.1.count = 2 ∧
      readVertices (MeshBlob.ofInit fixtureArrays).getVerts.1.ptr = fixtureArrays.verts ∧
      (MeshBlob.ofInit fixtureArrays).getTris.1.ptr = [0, 1, 1] :=
  have h := accessors_view_the_arrays fixtureArrays.verts fixtureArrays.norms
    fixtureArrays.tris (by decide) (by decide) (by decide)
  ⟨⟨by decide, by decide, by decide⟩, h.1.1, h.1.2.2, by decide⟩

/-- C15: no deduplication across faces: the number of emitted vertices is the sum of the
node counts of the faces not skipped, the number of emitted triangles is the sum of their
triangle counts, and the vertex array is the concatenation, in face order, of the blocks
of the faces not skipped, each block listing the nodes `1, ..., NbNodes` in that order. -/
theorem no_deduplication_across_faces {D F T : Type} [Neg D] (K : Kernel D F T)
    (faces : List (TopoDS_Face D T)) :
    (flatten K faces).verts.length = ((kept faces).map nodeCount).sum ∧
      (flatten K faces).tris.length = ((kept faces).map triangleCount).sum ∧
      (flatten K faces).verts = (kept faces).flatMap (faceVerts K) ∧
      ∀ f ∈ kept faces, ∀ face_tri, f.Triangulation = some face_tri →
        faceVerts K f =
          (List.range' 1 face_tri.NbNodes).map fun i => castXYZ K (placedNode K f face_tri i) := by
  refine ⟨flatten_verts_length K faces, ?_, ?_, ?_⟩
  · rw [flatten_tris_length, sum_triangleCount_kept]
    congr 1
    exact List.map_congr_left fun f _ => length_localTriangles f
  · rw [(flatten_verts_kept K faces), flatten_verts]
  · intro f hf face_tri hT
    have hs : skipped f = false := by
      have := (List.mem_filter.mp hf).2
      simpa using this
    unfold skipped at hs
    rw [hT] at hs
    unfold faceVerts
    rw [hT]
    simp only [decide_eq_false_iff_not] at hs
    simp [hs]

/-- Witness for C15: faces A, C (skipped) and B of the fixture: 4 + 3 vertices, 2 + 1
triangles, and the block of face B lists its three nodes in order. -/
theorem no_deduplication_across_faces_witness :
    (fixtureB ∈ kept [fixtureA, fixtureC, fixtureB] ∧
        fixtureB.Triangulation = some fixtureTriB) ∧
      (flatten fixtureKernel [fixtureA, fixtureC, fixtureB]).verts.length = 7 ∧
      (flatten fixtureKernel [fixtureA, fixtureC, fixtureB]).tris.length = 3 ∧
      faceVerts fixtureKernel fixtureB =
        (List.range' 1 fixtureTriB.NbNodes).map fun i =>
          castXYZ fixtureKernel (placedNode fixtureKernel fixtureB fixtureTriB i) :=
  have h := no_deduplication_across_faces fixtureKernel [fixtureA, fixtureC, fixtureB]
  have hm : fixtureB ∈ kept [fixtureA, fixtureC, fixtureB] := by
    simp [kept, skipped, fixtureA, fixtureB, fixtureC, fixtureTriB]
  ⟨⟨hm, rfl⟩, h.1.trans (by decide), h.2.1.trans (by decide), h.2.2.2 fixtureB hm fixtureTriB rfl⟩

/-! ## Nodes, composition and locality -/

/-- C14: for a face that is not skipped and each of its nodes `i`, the loop emits, at the
place of the node behind the output of the preceding faces: under the identity location
the cast of the node's position and the cast of its sign-adjusted normal; under any other
location the cast of the transformed position and the cast of the sign-adjusted
transformed normal, the transformation being applied before the cast. -/
theorem node_cast_after_transform {D F T : Type} [Neg D] (K : Kernel D F T)
    (pre : List (TopoDS_Face D T)) (f : TopoDS_Face D T) (post : List (TopoDS_Face D T))
    (face_tri : Poly_Triangulation D) (hT : f.Triangulation = some face_tri)
    (hn : ¬ face_tri.NbTriangles < 1) (i : Nat) (h1 : 1 ≤ i) (h2 : i ≤ face_tri.NbNodes) :
    (f.loc.IsIdentity = true →
        (flatten K (pre ++ f :: post)).verts[(flatten K pre).verts.length + (i - 1)]? =
            some (castXYZ K (face_tri.Node i)) ∧
          (flatten K (pre ++ f :: post)).norms[(flatten K pre).norms.length + (i - 1)]? =
            some (castXYZ K (orient f.Orientation (kernelNormal face_tri i)))) ∧
      (f.loc.IsIdentity = false →
        (flatten K (pre ++ f :: post)).verts[(flatten K pre).verts.length + (i - 1)]? =
            some (castXYZ K (K.PntTransformed (face_tri.Node i) f.loc.Transformation)) ∧
          (flatten K (pre ++ f :: post)).norms[(flatten K pre).norms.length + (i - 1)]? =
            some (castXYZ K (orient f.Orientation
              (K.DirTransformed (kernelNormal face_tri i) f.loc.Transformation)))) := by
  obtain ⟨hv, hnm, _⟩ := flatten_face_block K pre f post
  have ev : faceVerts K f = (List.range' 1 face_tri.NbNodes).map fun i =>
      castXYZ K (placedNode K f face_tri i) := by
    unfold faceVerts; rw [hT]; simp [hn]
  have en : faceNorms K f = (List.range' 1 face_tri.NbNodes).map fun i =>
      castXYZ K (orient f.Orientation (placedNormal K f face_tri i)) := by
    unfold faceNorms; rw [hT]; simp [hn]
  have hi : 1 + (i - 1) = i := by omega
  have gv := getElem?_of_block hv (i - 1) (by rw [ev]; simp; omega)
  have gn := getElem?_of_block hnm (i - 1) (by rw [en]; simp; omega)
  rw [ev, List.getElem?_map, List.getElem?_range' 1 1 (by omega : i - 1 < face_tri.NbNodes)]
    at gv
  rw [en, List.getElem?_map, List.getElem?_range' 1 1 (by omega : i - 1 < face_tri.NbNodes)]
    at gn
  simp only [Nat.one_mul, hi, Option.map_some'] at gv gn
  constructor
  · intro hI
    rw [gv, gn]
    simp [placedNode, placedNormal, hI]
  · intro hI
    rw [gv, gn]
    simp [placedNode, placedNormal, hI]

/-- Witness for C14: node 2 of face B of the fixture (translated by 10, reversed) behind
face A. -/
theorem node_cast_after_transform_witness :
    (fixtureB.Triangulation = some fixtureTriB ∧ ¬ fixtureTriB.NbTriangles < 1 ∧ 1 ≤ 2 ∧
        2 ≤ fixtureTriB.NbNodes ∧ fixtureB.loc.IsIdentity = false) ∧
      (flatten fixtureKernel ([fixtureA] ++ fixtureB :: [])).verts[
          (flatten fixtureKernel [fixtureA]).verts.length + (2 - 1)]? =
        some (castXYZ fixtureKernel
          (fixtureKernel.PntTransformed (fixtureTriB.Node 2) fixtureB.loc.Transformation)) ∧
      (flatten fixtureKernel ([fixtureA] ++ fixtureB :: [])).norms[
          (flatten fixtureKernel [fixtureA]).norms.length + (2 - 1)]? =
        some (castXYZ fixtureKernel (orient fixtureB.Orientation
          (fixtureKernel.DirTransformed (kernelNormal fixtureTriB 2)
            fixtureB.loc.Transformation))) :=
  ⟨⟨rfl, by decide, by decide, by decide, rfl⟩,
    (node_cast_after_transform fixtureKernel [fixtureA] fixtureB [] fixtureTriB rfl
      (by decide) 2 (by decide) (by decide)).2 rfl⟩

/-- C19, as stated, fails when a local index is not a node number: a triangle with local
index `0` in a first face is emitted with index `2 ^ 32 - 1`, and behind the four vertices
of face A with index `3`, not `2 ^ 32 + 3`; the total node count is `5`. -/
theorem composition_wraps_on_index_zero :
    totalNodes ([fixtureA] ++ [fixtureZeroIndex]) < 2 ^ 32 ∧
      ¬ Compositional fixtureKernel [fixtureA] [fixtureZeroIndex] := by
  refine ⟨by decide, ?_⟩
  unfold Compositional
  decide

/-- C19, amended: when the total node count of `A ++ B` is below `2 ^ 32` and the triangle
indices of every face of `B` lie in `1 .. NbNodes` of that face, the loop on `A ++ B`
yields the vertices of `A` followed by those of `B`, the normals of `A` followed by those
of `B`, and the triangles of `A` followed by those of `B` with every index increased by
the number of vertices of `A`. -/
theorem flatten_is_compositional {D F T : Type} [Neg D] (K : Kernel D F T)
    (A B : List (TopoDS_Face D T)) (hrange : ∀ f ∈ B, IndicesInRange f)
    (hsize : totalNodes (A ++ B) < 2 ^ 32) : Compositional K A B := by
  have hA : (flatten K A).verts.length ≤ totalNodes A := by
    rw [flatten_verts_length]
    exact totalNodes_kept_le A
  rw [totalNodes_append] at hsize
  refine ⟨?_, ?_, ?_⟩
  · simp [flatten_verts, List.flatMap_append]
  · simp [flatten_norms, List.flatMap_append]
  · rw [flatten_append, foldl_faceBody_tris, flatten_tris K B]
    have := trisFrom_shift K (flatten K A).verts.length B 0 hrange (by omega)
    rw [Nat.add_zero] at this
    rw [this]

/-- Witness for C19 (amended): faces A and B of the fixture. -/
theorem flatten_is_compositional_witness :
    ((∀ f ∈ [fixtureB], IndicesInRange f) ∧ totalNodes ([fixtureA] ++ [fixtureB]) < 2 ^ 32) ∧
      Compositional fixtureKernel [fixtureA] [fixtureB] :=
  ⟨⟨by unfold IndicesInRange; decide, by decide⟩,
    flatten_is_compositional fixtureKernel [fixtureA] [fixtureB]
      (by unfold IndicesInRange; decide) (by decide)⟩

/-- C20: when the triangle indices of every face lie in `1 .. NbNodes` of that face and the
total node count is below `2 ^ 32`, every index of a triangle emitted for a face lies in
the range from `vertex_start` (included) to `vertex_start + NbNodes` of that face
(excluded), `vertex_start` being the number of vertices emitted before that face; the
triangles emitted for the face are those behind the triangles of the preceding faces, as
many as the face has. -/
theorem triangles_stay_within_their_face {D F T : Type} [Neg D] (K : Kernel D F T)
    (pre : List (TopoDS_Face D T)) (f : TopoDS_Face D T) (post : List (TopoDS_Face D T))
    (hrange : ∀ g ∈ pre ++ f :: post, IndicesInRange g)
    (hsize : totalNodes (pre ++ f :: post) < 2 ^ 32) :
    ∀ t ∈ (((flatten K (pre ++ f :: post)).tris.drop (flatten K pre).tris.length).take
        (triangleCount f)),
      ((flatten K pre).verts.length ≤ t.x ∧
          t.x < (flatten K pre).verts.length + nodeCount f) ∧
        ((flatten K pre).verts.length ≤ t.y ∧
          t.y < (flatten K pre).verts.length + nodeCount f) ∧
        ((flatten K pre).verts.length ≤ t.z ∧
          t.z < (flatten K pre).verts.length + nodeCount f) := by
  have hpre : (flatten K pre).verts.length ≤ totalNodes pre := by
    rw [flatten_verts_length]
    exact totalNodes_kept_le pre
  rw [totalNodes_append, totalNodes_cons] at hsize
  obtain ⟨r, hr⟩ := (flatten_face_block K pre f post).2.2
  have hlen : (faceTris (u32OfSize (flatten K pre).verts.length) f).length =
      triangleCount f := by
    simp [faceTris, length_localTriangles]
  intro t ht
  rw [← hr, List.append_assoc, List.drop_left, ← hlen, List.take_left] at ht
  simp only [faceTris, List.mem_map] at ht
  obtain ⟨idx, hidx, rfl⟩ := ht
  obtain ⟨⟨a1, a2⟩, ⟨b1, b2⟩, c1, c2⟩ :=
    hrange f (List.mem_append_right _ (List.mem_cons_self _ _)) idx hidx
  have ea := globalIndex_exact (flatten K pre).verts.length idx.1 (by omega) (by omega)
  have eb := globalIndex_exact (flatten K pre).verts.length idx.2.1 (by omega) (by omega)
  have ec := globalIndex_exact (flatten K pre).verts.length idx.2.2 (by omega) (by omega)
  simp only [globalTriangle]
  omega

/-- Witness for C20: face B of the fixture between face A and face C. -/
theorem triangles_stay_within_their_face_witness :
    ((∀ g ∈ [fixtureA] ++ fixtureB :: [fixtureC], IndicesInRange g) ∧
        totalNodes ([fixtureA] ++ fixtureB :: [fixtureC]) < 2 ^ 32) ∧
      ∀ t ∈ (((flatten fixtureKernel ([fixtureA] ++ fixtureB :: [fixtureC])).tris.drop
          (flatten fixtureKernel [fixtureA]).tris.length).take (triangleCount fixtureB)),
        ((flatten fixtureKernel [fixtureA]).verts.length ≤ t.x ∧
            t.x < (flatten fixtureKernel [fixtureA]).verts.length + nodeCount fixtureB) ∧
          ((flatten fixtureKernel [fixtureA]).verts.length ≤ t.y ∧
            t.y < (flatten fixtureKernel [fixtureA]).verts.length + nodeCount fixtureB) ∧
          ((flatten fixtureKernel [fixtureA]).verts.length ≤ t.z ∧
            t.z < (flatten fixtureKernel [fixtureA]).verts.length + nodeCount fixtureB) :=
  ⟨⟨by unfold IndicesInRange; decide, by decide⟩,
    triangles_stay_within_their_face fixtureKernel [fixtureA] fixtureB [fixtureC]
      (by unfold IndicesInRange; decide) (by decide)⟩

/-! ## Profile and solid -/

/-- C16: in `make_flask` the fillet is built on the extruded body with the radius
`thickness / 12` added for every edge the explorer enumerates on it, and the fuse comes
after it: its first operand is the result of the fillet, its second the cylinder of radius
`thickness / 4` and length `height / 10` based at `(0, height, 0)` along `Y`, and the
solid that is meshed is the result of the fuse itself.  In the construction history the
solid is `Fuse (Fillet (Prism ..) ..) (Cylinder ..)`. -/
theorem fillet_precedes_fuse {E S T : Type} (M : Modeller E S T)
    (width thickness height : ℚ) :
    (∀ result, solid M width thickness height = .ok result →
      ∃ prism filleted neck, extrude M width thickness height = .ok prism ∧
        M.MakeFillet prism ((M.Edges prism).map fun edge => (thickness / 12, edge)) =
          .ok filleted ∧
        M.MakeCylinder ⟨⟨0, height, 0⟩, ⟨0, 1, 0⟩⟩ (thickness / 4) (height / 10) = .ok neck ∧
        M.Fuse filleted neck = .ok result) ∧
      ∀ edges : Shape → List Shape,
        extrude (historyModeller edges) width thickness height =
            .ok (prismHistory width thickness height) ∧
          solid (historyModeller edges) width thickness height =
            .ok (Shape.Fuse
              (Shape.Fillet (prismHistory width thickness height)
                ((edges (prismHistory width thickness height)).map fun edge =>
                  (thickness / 12, edge)))
              (Shape.Cylinder ⟨⟨0, height, 0⟩, ⟨0, 1, 0⟩⟩ (thickness / 4) (height / 10))) := by
  have h12 : (12.0 : ℚ) = 12 := by norm_num
  have h4 : (4. : ℚ) = 4 := by norm_num
  have h10 : (10. : ℚ) = 10 := by norm_num
  have h0 : (0.0 : ℚ) = 0 := by norm_num
  constructor
  · intro result hres
    unfold solid at hres
    cases h1 : extrude M width thickness height with
    | error e => rw [h1] at hres; simp [bind, Except.bind] at hres
    | ok prism =>
      rw [h1] at hres
      simp only [bind, Except.bind] at hres
      cases h2 : fillet M prism thickness with
      | error e => rw [h2] at hres; simp at hres
      | ok filleted =>
        rw [h2] at hres
        simp only [fuseNeck, bind, Except.bind] at hres
        cases h3 : M.MakeCylinder ⟨⟨0.0, height, 0.0⟩, gp.DY⟩ (thickness / 4.)
            (height / 10.) with
        | error e => rw [h3] at hres; simp at hres
        | ok neck =>
          rw [h3] at hres
          simp only at hres
          refine ⟨prism, filleted, neck, rfl, ?_, ?_, hres⟩
          · unfold fillet at h2
            rw [h12] at h2
            exact h2
          · rw [h4, h10, h0] at h3
            exact h3
  · intro edges
    constructor
    · unfold extrude prismHistory
      rw [h0]
      rfl
    · unfold solid extrude fillet fuseNeck prismHistory
      rw [h12, h4, h10, h0]
      rfl

/-- Witness for C16: the symbolic kernel without edges at `(1, 1, 1)`. -/
theorem fillet_precedes_fuse_witness :
    solid (historyModeller fun _ => []) 1 1 1 =
        .ok (Shape.Fuse (Shape.Fillet (prismHistory 1 1 1) [])
          (Shape.Cylinder ⟨⟨0, 1, 0⟩, ⟨0, 1, 0⟩⟩ (1 / 4) (1 / 10))) ∧
      ∃ prism filleted neck, extrude (historyModeller fun _ => []) 1 1 1 = .ok prism ∧
        (historyModeller fun _ => []).MakeFillet prism
            (((historyModeller fun _ => []).Edges prism).map fun edge => ((1 : ℚ) / 12, edge)) =
          .ok filleted ∧
        (historyModeller fun _ => []).MakeCylinder ⟨⟨0, 1, 0⟩, ⟨0, 1, 0⟩⟩ (1 / 4) (1 / 10) =
          .ok neck ∧
        (historyModeller fun _ => []).Fuse filleted neck =
          .ok (Shape.Fuse (Shape.Fillet (prismHistory 1 1 1) [])
            (Shape.Cylinder ⟨⟨0, 1, 0⟩, ⟨0, 1, 0⟩⟩ (1 / 4) (1 / 10))) :=
  ⟨((fillet_precedes_fuse (historyModeller fun _ => []) 1 1 1).2 _).2,
    (fillet_precedes_fuse (historyModeller fun _ => []) 1 1 1).1 _
      ((fillet_precedes_fuse (historyModeller fun _ => []) 1 1 1).2 _).2⟩

/-- C18: for every width and thickness the five control points are symmetric about the
plane `x = 0` (point `i` is the reflection of point `4 - i`); the outer points are
`(-width/2, 0, 0)` and `(width/2, 0, 0)`, the tangent points lie `thickness/4` from them
along `Z`, the apex is `(0, 0, -thickness/2)`; the two segments join each outer point to
its tangent point and the arc runs through both tangent points and the apex. -/
theorem profile_points_symmetric (width thickness : ℚ) :
    (∀ i : Fin 5, pts width thickness i = reflectX (pts width thickness (4 - i))) ∧
      pts width thickness 0 = ⟨-(width / 2), 0, 0⟩ ∧
      pts width thickness 4 = ⟨width / 2, 0, 0⟩ ∧
      pts width thickness 1 = ⟨-(width / 2), 0, 0 - thickness / 4⟩ ∧
      pts width thickness 3 = ⟨width / 2, 0, 0 - thickness / 4⟩ ∧
      pts width thickness 2 = ⟨0, 0, -(thickness / 2)⟩ ∧
      ∀ edges : Shape → List Shape, profile (historyModeller edges) width thickness =
        .ok (Shape.Wire
          [Shape.Wire
              [Shape.Edge (Shape.Segment (pts width thickness 0) (pts width thickness 1)),
                Shape.Edge (Shape.ArcOfCircle (pts width thickness 1) (pts width thickness 2)
                  (pts width thickness 3)),
                Shape.Edge (Shape.Segment (pts width thickness 3) (pts width thickness 4))],
            Shape.Mirrored
              (Shape.Wire
                [Shape.Edge (Shape.Segment (pts width thickness 0) (pts width thickness 1)),
                  Shape.Edge (Shape.ArcOfCircle (pts width thickness 1)
                    (pts width thickness 2) (pts width thickness 3)),
                  Shape.Edge (Shape.Segment (pts width thickness 3) (pts width thickness 4))])
              gp.OX]) := by
  refine ⟨?_, ?_, ?_, ?_, ?_, ?_, fun _ => rfl⟩
  · intro i
    fin_cases i <;> simp [pts, reflectX]
    norm_num
  · simp [pts]; norm_num; ring
  · simp [pts]; norm_num; ring
  · simp [pts]; norm_num; constructor <;> ring
  · simp [pts]; norm_num; constructor <;> ring
  · simp [pts]; norm_num; ring

end occt
